import Mathlib

/-!
Verification development for the gnss-tec library: a shallow embedding of
its epoch codec, GLONASS frequency-channel table, TEC engine and the
caching logic of the RINEX observation decoders, together with theorems
about the behaviour of those functions.

Numeric conventions of the embedding:
* Python `datetime.datetime` values are modelled as the number of
  microseconds since the start of proleptic-Gregorian day 0; the calendar
  conversion mirrors CPython's `date.toordinal`.  Comparison of datetimes
  is then plain `Nat` order and `date()` is division by the number of
  microseconds in a day.
* Python floats that carry exact decimal data in this code base (RINEX
  version numbers, frequencies, observation values, TEC factors) are
  modelled as rationals.
-/

namespace GnssTec

instance {ε α : Type} [DecidableEq ε] [DecidableEq α] :
    DecidableEq (Except ε α) := fun x y =>
  match x, y with
  | .ok a, .ok b =>
    if h : a = b then .isTrue (by rw [h])
    else .isFalse (fun hc => h (Except.ok.inj hc))
  | .error a, .error b =>
    if h : a = b then .isTrue (by rw [h])
    else .isFalse (fun hc => h (Except.error.inj hc))
  | .ok _, .error _ => .isFalse (fun hc => Except.noConfusion hc)
  | .error _, .ok _ => .isFalse (fun hc => Except.noConfusion hc)

/-! ### Calendar model of Python `datetime` -/

/-- Gregorian leap-year test, as in CPython `calendar.isleap`. -/
def isLeap (y : Nat) : Bool :=
  y % 4 == 0 && (y % 100 != 0 || y % 400 == 0)

/-- Number of days in month `m` of year `y` (months are 1-based). -/
def daysInMonth (y m : Nat) : Nat :=
  match m with
  | 1 => 31 | 3 => 31 | 5 => 31 | 7 => 31 | 8 => 31 | 10 => 31 | 12 => 31
  | 4 => 30 | 6 => 30 | 9 => 30 | 11 => 30
  | 2 => if isLeap y then 29 else 28
  | _ => 0

/-- Days before January 1st of year `y`, as in CPython `_days_before_year`. -/
def daysBeforeYear (y : Nat) : Nat :=
  (y - 1) * 365 + (y - 1) / 4 - (y - 1) / 100 + (y - 1) / 400

/-- Days in year `y` preceding month `m`, as in CPython `_days_before_month`. -/
def daysBeforeMonth (y m : Nat) : Nat :=
  (match m with
   | 1 => 0 | 2 => 31 | 3 => 59 | 4 => 90 | 5 => 120 | 6 => 151
   | 7 => 181 | 8 => 212 | 9 => 243 | 10 => 273 | 11 => 304 | 12 => 334
   | _ => 0) +
  (if 2 < m && isLeap y then 1 else 0)

/-- Proleptic-Gregorian ordinal of a date, as in CPython `date.toordinal`. -/
def toOrdinal (y m d : Nat) : Nat :=
  daysBeforeYear y + daysBeforeMonth y m + d

/-- Microseconds in one day. -/
def usPerDay : Nat := 86400000000

/-- A `datetime.datetime` value as microseconds since day 0. -/
def toMicro (y mo d h mi s us : Nat) : Nat :=
  (((toOrdinal y mo d * 24 + h) * 60 + mi) * 60 + s) * 1000000 + us

/-- The `date()` component of a datetime value (its ordinal day). -/
def dateOf (t : Nat) : Nat := t / usPerDay

/-! ### `dtutils.validate_epoch` -/

/-- The two-digit-year pivot of `validate_epoch` (dtutils.py lines 33-37). -/
def pivotYear (y : Nat) : Nat :=
  if y < 100 then (if 89 ≤ y then y + 1900 else y + 2000) else y

/-- Body of `validate_epoch` after the year pivot: overflow correction of the
seconds and minutes fields (dtutils.py lines 39-47), then construction of the
datetime (which CPython rejects, here `none`, when a field is out of range)
plus the accumulated delta. -/
def validateRest (y : Nat) (rest : List Nat) : Option Nat :=
  match rest with
  | [mo, d, h, mi, s, us] =>
    let ds := if 60 ≤ s ∧ s ≤ 120 then s - 59 else 0
    let s := if 60 ≤ s ∧ s ≤ 120 then 59 else s
    let dm := if 60 ≤ mi ∧ mi ≤ 120 then mi - 59 else 0
    let mi := if 60 ≤ mi ∧ mi ≤ 120 then 59 else mi
    if 1 ≤ y ∧ y ≤ 9999 ∧ 1 ≤ mo ∧ mo ≤ 12 ∧ 1 ≤ d ∧ d ≤ daysInMonth y mo ∧
       h ≤ 23 ∧ mi ≤ 59 ∧ s ≤ 59 ∧ us ≤ 999999 then
      some (toMicro y mo d h mi s us + (ds + 60 * dm) * 1000000)
    else
      none
  | _ => none

/-- `dtutils.validate_epoch`: epoch is `[year, month, day, hour, min, sec,
microsec]` (all fields non-negative integers in this code base). -/
def validate_epoch (epoch : List Nat) : Option Nat :=
  match epoch with
  | y :: rest => validateRest (pivotYear y) rest
  | [] => none

/-! ### `glo.fetch_slot_freq_num`

The `freq_nums` dictionary `{slot: {datetime: freq_num}}` is modelled as an
association list with distinct keys (Python dict semantics); dict values,
which are Python floats parsed from the navigation file, are rationals. -/

/-- Errors raised by `glo.py`. `indexError` stands for the uncaught Python
`IndexError` that `dates_times[0]` would raise on an (unreachable for tables
built by `collect_freq_nums`) empty per-slot dictionary. -/
inductive FreqNumError where
  | slotNotFound
  | channelNotFound
  | indexError
  deriving DecidableEq, Repr

/-- First-match association-list lookup: Python dict indexing `d[k]` for a
dict represented as a key-value list with distinct keys. -/
def lookupKey {κ α : Type} [DecidableEq κ] (k : κ) : List (κ × α) → Option α
  | [] => none
  | (k2, v) :: rest => if k2 = k then some v else lookupKey k rest

/-- A stored timestamp `ts` qualifies for query `q` when it is `≤ q` and on
the same calendar date (`timestamp >= ts and timestamp.date() == ts.date()`
in glo.py line 209). -/
def qualifies (q ts : Nat) : Prop := ts ≤ q ∧ dateOf q = dateOf ts

instance (q ts : Nat) : Decidable (qualifies q ts) :=
  inferInstanceAs (Decidable (ts ≤ q ∧ dateOf q = dateOf ts))

/-- `glo.fetch_slot_freq_num` (glo.py lines 180-223).  `timestamp` and the
dict keys are datetimes in the microsecond model; sorting the keys models
Python `sorted(slot_freq_nums.keys())`. -/
def fetch_slot_freq_num (timestamp : Nat) (slot : Nat)
    (freq_nums : List (Nat × List (Nat × ℚ))) : Except FreqNumError ℚ :=
  match lookupKey slot freq_nums with
  | none => .error .slotNotFound
  | some slot_freq_nums =>
    let dates_times := List.insertionSort (· ≤ ·) (slot_freq_nums.map Prod.fst)
    let freq_num := dates_times.foldl
      (fun acc ts =>
        if qualifies timestamp ts then lookupKey ts slot_freq_nums else acc)
      none
    match freq_num with
    | some v => .ok v
    | none =>
      match dates_times with
      | [] => .error .indexError
      | t0 :: _ =>
        if dateOf timestamp = dateOf t0 then
          match lookupKey t0 slot_freq_nums with
          | some v => .ok v
          | none => .error .indexError
        else .error .channelNotFound

/-- The frequency-channel table of the spec's worked example:
`{slot 2: {2016-12-08T00:15 -> -3, 2016-12-08T10:15 -> -4,
2016-12-08T13:15 -> -5}}` (entries in the insertion order used by the
repository's own test). -/
def fcExampleEntries : List (Nat × ℚ) :=
  [(toMicro 2016 12 8 13 15 0 0, -5),
   (toMicro 2016 12 8 0 15 0 0, -3),
   (toMicro 2016 12 8 10 15 0 0, -4)]

def fcExampleTable : List (Nat × List (Nat × ℚ)) := [(2, fcExampleEntries)]

/-! ### `tec.Tec`: the TEC engine -/

/-- Errors raised while computing TEC values.  `tecError` is the library's
own `TecError`; the other constructors stand for the uncaught Python
exceptions the corresponding expressions can raise (`KeyError` for a band
missing from `FREQUENCY[sys]`, `TypeError` for `None` used as a number,
`IndexError` for indexing a too-short sequence, `ValueError` for `int()` on
a non-digit). -/
inductive TecError where
  | tecError
  | keyError
  | typeError
  | indexError
  | valueError
  deriving DecidableEq

/-- A RINEX observation code, e.g. `['L','1']` or `['C','2','I']`. -/
abbrev ObsCode := List Char

/-- The `Tec` object's data fields (tec.py lines 86-99); the `{1: _, 2: _}`
band dictionaries are split into per-band fields. -/
structure Tec where
  timestamp : Nat
  time_system : List Char
  satellite : List Char
  glo_freq_num : Option ℚ
  phase1 : ℚ := 0
  phase2 : ℚ := 0
  phase_code1 : Option ObsCode := none
  phase_code2 : Option ObsCode := none
  signal_strength : Int := 0
  p_range1 : ℚ := 0
  p_range2 : ℚ := 0
  p_range_code1 : Option ObsCode := none
  p_range_code2 : Option ObsCode := none
  lli1 : Int := 0
  lli2 : Int := 0
  deriving DecidableEq

/-- `Tec.__init__` (tec.py lines 60-99): GLONASS satellites (system letter
`R`, case-insensitively) require a frequency number; on success every
observation field starts at its zero/None default. -/
def Tec.mk_init (timestamp : Nat) (time_system satellite : List Char)
    (glo_freq_num : Option ℚ) : Except TecError Tec :=
  match satellite with
  | [] => .error .indexError
  | c :: _ =>
    if c.toUpper = 'R' ∧ glo_freq_num = none then .error .tecError
    else .ok { timestamp := timestamp, time_system := time_system,
               satellite := satellite, glo_freq_num := glo_freq_num }

/-- The constant entries of `gnss.FREQUENCY` in Hz (gnss.py lines 19-62);
the GLONASS bands 1 and 2 are functions of the frequency number and are in
`gloFreq` below. -/
def FREQUENCY_const (sys : Char) (band : Nat) : Option ℚ :=
  match sys, band with
  | 'G', 1 => some 1575420000
  | 'G', 2 => some 1227600000
  | 'G', 5 => some 1176450000
  | 'R', 3 => some 1202025000
  | 'E', 1 => some 1575420000
  | 'E', 5 => some 1176450000
  | 'E', 7 => some 1207140000
  | 'E', 8 => some 1191795000
  | 'E', 6 => some 1278750000
  | 'S', 1 => some 1575420000
  | 'S', 5 => some 1176450000
  | 'J', 1 => some 1575420000
  | 'J', 2 => some 1227600000
  | 'J', 5 => some 1176450000
  | 'J', 6 => some 1278750000
  | 'C', 2 => some 1561098000
  | 'C', 7 => some 1207140000
  | 'C', 6 => some 1268520000
  | 'I', 5 => some 1176450000
  | 'I', 9 => some 2492028000
  | _, _ => none

/-- GLONASS branch of `Tec._get_freq` (tec.py lines 125-132): band 3 is
fixed, bands 1 and 2 are `base + k * step` with `k` the frequency number
(`562.5e3` and `437.5e3` Hz per channel). -/
def gloFreq (band : Nat) (k : Option ℚ) : Except TecError ℚ :=
  if band = 3 then .ok 1202025000
  else
    match band with
    | 1 =>
      match k with
      | none => .error .typeError
      | some k => .ok (1602000000 + k * 562500)
    | 2 =>
      match k with
      | none => .error .typeError
      | some k => .ok (1246000000 + k * 437500)
    | _ => .error .keyError

/-- Band digit extraction `int(obs_code[b][1])` used by `Tec._get_freq`. -/
def bandOf (code : Option ObsCode) : Except TecError Nat :=
  match code with
  | none => .error .typeError
  | some cs =>
    match cs[1]? with
    | none => .error .indexError
    | some ch => if ch.isDigit then .ok (ch.toNat - 48) else .error .valueError

/-- Non-GLONASS frequency lookup `FREQUENCY[sat_sys][band]`. -/
def constFreq (sys : Char) (band : Nat) : Except TecError ℚ :=
  match FREQUENCY_const sys band with
  | some f => .ok f
  | none => .error .keyError

/-- `Tec._get_freq` (tec.py lines 113-138): frequencies of the two selected
bands, derived from the band digits of the two observation codes. -/
def Tec.get_freq_aux (obs_code : Option ObsCode × Option ObsCode)
    (sat_sys : Char) (glo_freq_num : Option ℚ) : Except TecError (ℚ × ℚ) :=
  if sat_sys ∉ (['G', 'R', 'E', 'S', 'J', 'C', 'I'] : List Char) then
    .error .tecError
  else if sat_sys = 'R' then do
    let b1 ← bandOf obs_code.1
    let f1 ← gloFreq b1 glo_freq_num
    let b2 ← bandOf obs_code.2
    let f2 ← gloFreq b2 glo_freq_num
    .ok (f1, f2)
  else do
    let b1 ← bandOf obs_code.1
    let f1 ← constFreq sat_sys b1
    let b2 ← bandOf obs_code.2
    let f2 ← constFreq sat_sys b2
    .ok (f1, f2)

/-- `Tec.get_freq` (tec.py lines 107-111): system letter is
`satellite[0].upper()`. -/
def Tec.get_freq (t : Tec) (obs_code : Option ObsCode × Option ObsCode) :
    Except TecError (ℚ × ℚ) :=
  match t.satellite with
  | [] => .error .indexError
  | c :: _ => Tec.get_freq_aux obs_code c.toUpper t.glo_freq_num

/-- `Tec.factor` (tec.py lines 101-105). -/
def Tec.factor (f1 f2 : ℚ) : ℚ :=
  1 / 40.308 * (f1 ^ 2 * f2 ^ 2) / (f1 ^ 2 - f2 ^ 2) * (1 / 10 ^ 16)

/-- The speed of light used by `Tec._calc_phase_tec`. -/
def speed_of_light : ℚ := 299792458

/-- The value computed by `Tec._calc_phase_tec` (tec.py lines 170-177) for
given phases and band frequencies (the code and satellite arguments of the
source function are unused there beyond computing `sat_sys`). -/
def Tec.calc_phase_tec_val (p1 p2 f1 f2 : ℚ) : ℚ :=
  Tec.factor f1 f2 * (speed_of_light / f1 * p1 - speed_of_light / f2 * p2)

/-- `Tec._calc_p_range_tec` (tec.py lines 200-204): recomputes the band
frequencies from the given codes and returns `factor * (r2 - r1)`. -/
def Tec.calc_p_range_tec (r1 r2 : ℚ) (code1 code2 : Option ObsCode)
    (sat : List Char) (glo_freq_num : Option ℚ) : Except TecError ℚ :=
  match sat with
  | [] => .error .indexError
  | c :: _ => do
    let fr ← Tec.get_freq_aux (code1, code2) c.toUpper glo_freq_num
    .ok (Tec.factor fr.1 fr.2 * (r2 - r1))

/-- `Tec.phase_tec` (tec.py lines 140-149). -/
def Tec.phase_tec (t : Tec) : Except TecError (Option ℚ) :=
  if t.phase1 = 0 then .ok none
  else if t.phase2 = 0 then .ok none
  else do
    let fr ← t.get_freq (t.phase_code1, t.phase_code2)
    .ok (some (Tec.calc_phase_tec_val t.phase1 t.phase2 fr.1 fr.2))

/-- `Tec.p_range_tec` (tec.py lines 179-187); note that the source passes
the *phase* observation codes to `_calc_p_range_tec`. -/
def Tec.p_range_tec (t : Tec) : Except TecError (Option ℚ) :=
  if t.p_range1 = 0 then .ok none
  else if t.p_range2 = 0 then .ok none
  else
    (Tec.calc_p_range_tec t.p_range1 t.p_range2 t.phase_code1 t.phase_code2
      t.satellite t.glo_freq_num).map some

/-- `Tec.validity` (tec.py lines 206-224): the `pattern` dictionary values
at positions 0-7, summed.  Python truthiness: `if self.lli[b]` is
"non-zero", `if not self.p_range[b]` and `if not self.phase[b]` are
"equal to zero". -/
def Tec.validity (t : Tec) : Nat :=
  [0, 0,
   if t.lli2 ≠ 0 then 2 ^ 2 else 0,
   if t.lli1 ≠ 0 then 2 ^ 3 else 0,
   if t.p_range2 = 0 then 2 ^ 4 else 0,
   if t.p_range1 = 0 then 2 ^ 5 else 0,
   if t.phase2 = 0 then 2 ^ 6 else 0,
   if t.phase1 = 0 then 2 ^ 7 else 0].foldl (· + ·) 0

/-- A concrete GPS record with all four observables present, used to
instantiate the TEC-engine theorems. -/
def tecExampleG : Tec :=
  { timestamp := 0, time_system := ['G', 'P', 'S'],
    satellite := ['G', '0', '6'], glo_freq_num := none,
    phase1 := 1000, phase2 := 2000,
    phase_code1 := some ['L', '1'], phase_code2 := some ['L', '2'],
    p_range1 := 3, p_range2 := 5 }

/-! ### `ObsFileV3.retrieve_obs_types`: the BeiDou band correction -/

/-- The loop body of the BeiDou correction (rinex.py lines 705-709): each
code `t` with `t[1] == '1'` is replaced by `t.replace('1', '2')`, which in
Python replaces every occurrence of `'1'`; `none` models the uncaught
`IndexError` of `t[1]` on a code shorter than two characters. -/
def bdsCorrectCodes : List ObsCode → Option (List ObsCode)
  | [] => some []
  | t :: rest =>
    match t[1]? with
    | none => none
    | some ch =>
      let t2 := if ch = '1' then t.map (fun c => if c = '1' then '2' else c)
                else t
      match bdsCorrectCodes rest with
      | none => none
      | some rest2 => some (t2 :: rest2)

/-- The BeiDou band-1 correction inside `ObsFileV3.retrieve_obs_types`
(rinex.py lines 702-710), applied to the code list of one
`SYS / # / OBS TYPES` header record; the RINEX version is a rational (the
source compares the parsed float with `3.02`). -/
def correct_obs_types (version : ℚ) (sat_sys : Char)
    (sys_obs_types : List ObsCode) : Option (List ObsCode) :=
  if 3.02 ≤ version ∧ sat_sys = 'C' then bdsCorrectCodes sys_obs_types
  else some sys_obs_types

/-! ### Navigation-file version gates (`glo.collect_freq_nums`, `nav.nav`) -/

inductive NavigationFileError where
  | unsupportedVersion
  | unsupportedType
  deriving DecidableEq

/-- Per-slot accumulator of `collect_freq_nums`: the insertion-ordered dict
`freq_num_timestamps[slot] : {freq_num: first_epoch}`. -/
def insertMsg (acc : List (Nat × List (ℚ × Nat))) (slot : Nat) (epoch : Nat)
    (f_num : ℚ) : List (Nat × List (ℚ × Nat)) :=
  match acc with
  | [] => [(slot, [(f_num, epoch)])]
  | (s, entries) :: rest =>
    if s = slot then
      if (entries.map Prod.fst).contains f_num then (s, entries) :: rest
      else (s, entries ++ [(f_num, epoch)]) :: rest
    else (s, entries) :: insertMsg rest slot epoch f_num

/-- `glo.collect_freq_nums` (glo.py lines 112-177) after the header line has
been parsed into `(version, type)` and the navigation messages into
`(slot, epoch, frequency number)` triples: the version/type gate, then the
first-seen-per-channel deduplication, then the inversion to
`{slot: {timestamp: freq_num}}`. -/
def collect_freq_nums (rnx_version : ℚ) (rnx_type : Char)
    (msgs : List (Nat × Nat × ℚ)) :
    Except NavigationFileError (List (Nat × List (Nat × ℚ))) :=
  if 2.11 < rnx_version then .error .unsupportedVersion
  else if rnx_type ≠ 'G' then .error .unsupportedType
  else
    let freq_num_timestamps :=
      msgs.foldl (fun acc m => insertMsg acc m.1 m.2.1 m.2.2) []
    .ok (freq_num_timestamps.map
      (fun s => (s.1, s.2.map (fun p => (p.2, p.1)))))

inductive NavVariant where
  | v2
  | v3
  deriving DecidableEq

/-- Version/type dispatch of the `nav` factory (nav.py lines 124-155). -/
def nav_select (rnx_version : ℚ) (rnx_type : Char) :
    Except NavigationFileError NavVariant :=
  if 2 ≤ rnx_version ∧ rnx_version ≤ 2.11 then
    if rnx_type ≠ 'G' then .error .unsupportedType else .ok .v2
  else if 3 ≤ rnx_version ∧ rnx_version ≤ 3.03 then .ok .v3
  else .error .unsupportedVersion

/-! ### v3 band/channel resolution and its cache (`ObsFileV3`) -/

/-- `ObsFileV3.bands` (rinex.py lines 416-424). -/
def v3bands (sys : Char) : List Nat :=
  match sys with
  | 'G' => [1, 2, 5]
  | 'R' => [1, 2, 3]
  | 'E' => [1, 5, 6, 7, 8]
  | 'C' => [2, 6, 7]
  | 'S' => [1, 5]
  | 'J' => [1, 2, 5, 6]
  | 'I' => [5, 9]
  | _ => []

/-- `ObsFileV3.channels` (rinex.py lines 426-463). -/
def v3channels (sys : Char) (band : Nat) : List Char :=
  match sys, band with
  | 'G', 1 => ['C', 'S', 'L', 'X', 'P', 'W', 'Y', 'M', 'N']
  | 'G', 2 => ['C', 'D', 'S', 'L', 'X', 'P', 'W', 'Y', 'M', 'N']
  | 'G', 5 => ['I', 'Q', 'X']
  | 'R', 1 => ['C', 'P']
  | 'R', 2 => ['C', 'P']
  | 'R', 3 => ['I', 'Q', 'X']
  | 'E', 1 => ['A', 'B', 'C', 'X', 'Z']
  | 'E', 5 => ['I', 'Q', 'X']
  | 'E', 6 => ['A', 'B', 'C', 'X', 'Z']
  | 'E', 7 => ['I', 'Q', 'X']
  | 'E', 8 => ['I', 'Q', 'X']
  | 'C', 2 => ['I', 'Q', 'X']
  | 'C', 6 => ['I', 'Q', 'X']
  | 'C', 7 => ['I', 'Q', 'X']
  | 'S', 1 => ['C']
  | 'S', 5 => ['I', 'Q', 'X']
  | 'J', 1 => ['C', 'S', 'L', 'X', 'Z']
  | 'J', 2 => ['S', 'L', 'X']
  | 'J', 5 => ['I', 'Q', 'X']
  | 'J', 6 => ['S', 'L', 'X']
  | 'I', 5 => ['A', 'B', 'C', 'X']
  | 'I', 9 => ['A', 'B', 'C', 'X']
  | _, _ => []

/-- Digit character of a band number (bands here are single digits). -/
def bandChar (b : Nat) : Char := Char.ofNat (48 + b)

/-- `ObsFileV3._generate_obs_codes` (rinex.py lines 500-534): the codes
`'{code}{band}{channel}'` synthesised for one system and band. -/
def v3ObsCodes (codeLetter : Char) (sys : Char) (band : Nat) : List ObsCode :=
  (v3channels sys band).map (fun ch => [codeLetter, bandChar band, ch])

/-- `gnss.BAND_PRIORITY` (gnss.py lines 64-72). -/
def BAND_PRIORITY (sys : Char) : List (Nat × Nat) :=
  match sys with
  | 'G' => [(1, 2), (1, 5)]
  | 'R' => [(1, 2), (1, 3)]
  | 'E' => [(1, 5), (1, 7), (1, 8), (1, 6)]
  | 'S' => [(1, 5)]
  | 'J' => [(1, 2), (1, 5), (1, 6)]
  | 'C' => [(2, 7), (2, 6)]
  | 'I' => [(5, 9)]
  | _ => []

/-- First index of a code in a code list (`list.index`); the value for an
absent code is never used by the callers below. -/
def listIndex (c : ObsCode) : List ObsCode → Nat
  | [] => 0
  | x :: rest => if x = c then 0 else listIndex c rest + 1

/-- The `code` helper of `indices_according_priority` (rinex.py lines
733-735): indices in `all_codes` of the codes common to both lists.  The
Python set intersection is iterated here in `current_codes` order. -/
def codeIndices (current_codes all_codes : List ObsCode) : List Nat :=
  ((current_codes.filter (fun c => c ∈ all_codes)).dedup).map
    (fun c => listIndex c all_codes)

/-- The `indices` helper of `indices_according_priority` (rinex.py lines
737-745): the first band pair of the priority list with available codes on
both bands; the head index of each band's list is taken. -/
def chooseIndices (ot_indices : Nat → List Nat) :
    List (Nat × Nat) → Except Unit (Nat × Nat)
  | [] => .error ()
  | (b1, b2) :: rest =>
    if ot_indices b1 ≠ [] ∧ ot_indices b2 ≠ [] then
      .ok ((ot_indices b1).headD 0, (ot_indices b2).headD 0)
    else chooseIndices ot_indices rest

/-- Configuration of an open v3 stream: the per-system observation types
from the header (after the BeiDou correction) and the band priority the
decoder was constructed with. -/
structure V3Config where
  obs_types : List (Char × List ObsCode)
  band_priority : Char → List (Nat × Nat)

/-- `ObsFileV3.indices_according_priority` (rinex.py lines 730-769).
Satellites reaching this call have their system declared in the header
(`_parse_obs_record` raises earlier otherwise); an undeclared system is
modelled by the empty code list. -/
def indices_according_priority (cfg : V3Config) (sat_system : Char) :
    Except Unit ((Nat × Nat) × (Nat × Nat)) := do
  let obs_types := (lookupKey sat_system cfg.obs_types).getD []
  let phase_indices ← chooseIndices
    (fun b => codeIndices (v3ObsCodes 'L' sat_system b) obs_types)
    (cfg.band_priority sat_system)
  let pr_indices ← chooseIndices
    (fun b => codeIndices (v3ObsCodes 'C' sat_system b) obs_types)
    (cfg.band_priority sat_system)
  .ok (phase_indices, pr_indices)

/-- Mutable state of the `ObsFileV3.next_tec` generator: the per-system
resolution cache `obs_indices` (initialised once, before the epoch loop;
rinex.py line 773) plus a log of the systems for which
`indices_according_priority` was invoked, in call order. -/
structure V3State where
  obs_indices : List (Char × ((Nat × Nat) × (Nat × Nat)))
  attempts : List Char
  deriving DecidableEq

/-- One satellite record of `ObsFileV3.next_tec` (rinex.py lines 810-837),
restricted to the band-resolution control flow: on a cache miss
`indices_according_priority` runs (logged in `attempts`); only a success is
stored in the cache, a `ValueError` skips the satellite (`continue`).  The
flag is whether a `Tec` record is yielded for the satellite (GLONASS
channel lookup, which can also skip a satellite earlier, is assumed to
succeed). -/
def v3SatStep (cfg : V3Config) (st : V3State) (sat_sys : Char) :
    V3State × Bool :=
  match lookupKey sat_sys st.obs_indices with
  | some _ => (st, true)
  | none =>
    match indices_according_priority cfg sat_sys with
    | .ok idx =>
      ({ obs_indices := st.obs_indices ++ [(sat_sys, idx)],
         attempts := st.attempts ++ [sat_sys] }, true)
    | .error _ => ({ st with attempts := st.attempts ++ [sat_sys] }, false)

/-- The satellites of one v3 epoch, in file order. -/
def v3Epoch (cfg : V3Config) (st : V3State) : List Char → V3State × List Bool
  | [] => (st, [])
  | s :: rest =>
    let q := v3SatStep cfg st s
    let r := v3Epoch cfg q.1 rest
    (r.1, q.2 :: r.2)

/-- The epoch loop of `next_tec` from a given state. -/
def v3StreamFrom (cfg : V3Config) (st : V3State) :
    List (List Char) → V3State × List (List Bool)
  | [] => (st, [])
  | sats :: rest =>
    let q := v3Epoch cfg st sats
    let r := v3StreamFrom cfg q.1 rest
    (r.1, q.2 :: r.2)

/-- A whole v3 stream: the single `obs_indices` cache is initialised once
and survives from epoch to epoch (rinex.py line 773). -/
def v3Stream (cfg : V3Config) (epochs : List (List Char)) :
    V3State × List (List Bool) :=
  v3StreamFrom cfg { obs_indices := [], attempts := [] } epochs

/-! ### v2 band/code resolution and its per-epoch cache (`ObsFileV2`) -/

/-- First index of a code in a v2 observation-type list, or `none` when
absent (`list.index` raising `ValueError`). -/
def indexOfCode (c : ObsCode) : List ObsCode → Option Nat
  | [] => none
  | x :: rest =>
    if x = c then some 0
    else (indexOfCode c rest).map (· + 1)

/-- `ObsFileV2._get_obs_indices` (rinex.py lines 152-195): every
band-pair/obs-pair combination `'{obs}{band}'` in priority order; a
combination with a code missing from `obs_types` is skipped; no viable
combination raises `ValueError`. -/
def v2_get_obs_indices (obs_types : List ObsCode)
    (band_priority : List (Nat × Nat)) (obs_priority : List (Char × Char)) :
    Except Unit (List (Nat × Nat)) :=
  let combinations := band_priority.flatMap (fun band =>
    obs_priority.map (fun obs =>
      ([obs.1, bandChar band.1], [obs.2, bandChar band.2])))
  let indices := combinations.filterMap (fun p => do
    let i1 ← indexOfCode p.1 obs_types
    let i2 ← indexOfCode p.2 obs_types
    some (i1, i2))
  if indices = [] then .error () else .ok indices

/-- Configuration of an open v2 stream: the flat header observation-type
list and the priority configuration of the constructor (the default
pseudorange priority is `(('P','P'), ('C','C'), ('C','P'))` for every
system; rinex.py lines 50-57). -/
structure V2Config where
  obs_types : List ObsCode
  band_priority : Char → List (Nat × Nat)
  pr_obs_priority : Char → List (Char × Char)

/-- Per-epoch mutable state of `ObsFileV2.next_tec`: the `phase_obs_index`
and `pr_obs_index` caches (the `phase_obs_code`/`pr_obs_code` dicts are
determined by them and are not tracked), plus a log of the systems for
which `_get_obs_indices` was invoked, in call order. -/
structure V2EpochState where
  phase_obs_index : List (Char × (Nat × Nat))
  pr_obs_index : List (Char × (Nat × Nat))
  attempts : List Char
  deriving DecidableEq

/-- Pseudorange half of the v2 per-satellite resolution block (rinex.py
lines 356-370 with the shared `except ValueError` of lines 371-376). -/
def v2SatStepPr (cfg : V2Config) (st : V2EpochState) (sat_sys : Char) :
    V2EpochState × Bool :=
  match lookupKey sat_sys st.pr_obs_index with
  | some _ => (st, true)
  | none =>
    match v2_get_obs_indices cfg.obs_types (cfg.band_priority sat_sys)
        (cfg.pr_obs_priority sat_sys) with
    | .error _ => ({ st with attempts := st.attempts ++ [sat_sys] }, false)
    | .ok idxs =>
      ({ st with
         pr_obs_index := st.pr_obs_index ++ [(sat_sys, idxs.headD (0, 0))],
         attempts := st.attempts ++ [sat_sys] }, true)

/-- The per-satellite band-resolution block of `ObsFileV2.next_tec`
(rinex.py lines 339-376).  Phase indices are resolved and cached first; a
phase failure skips the satellite with nothing cached, while a pseudorange
failure still leaves the just-cached phase indices in place, mirroring the
mutation order of the source.  The flag is whether a `Tec` record is
yielded (GLONASS channel lookup is assumed to succeed). -/
def v2SatStep (cfg : V2Config) (st : V2EpochState) (sat_sys : Char) :
    V2EpochState × Bool :=
  match lookupKey sat_sys st.phase_obs_index with
  | some _ => v2SatStepPr cfg st sat_sys
  | none =>
    match v2_get_obs_indices cfg.obs_types (cfg.band_priority sat_sys)
        [('L', 'L')] with
    | .error _ => ({ st with attempts := st.attempts ++ [sat_sys] }, false)
    | .ok idxs =>
      v2SatStepPr cfg
        { st with
          phase_obs_index :=
            st.phase_obs_index ++ [(sat_sys, idxs.headD (0, 0))],
          attempts := st.attempts ++ [sat_sys] } sat_sys

/-- The satellites of one v2 epoch, from a given per-epoch state. -/
def v2EpochFrom (cfg : V2Config) (st : V2EpochState) :
    List Char → V2EpochState × List Bool
  | [] => (st, [])
  | s :: rest =>
    let q := v2SatStep cfg st s
    let r := v2EpochFrom cfg q.1 rest
    (r.1, q.2 :: r.2)

/-- One v2 epoch: the cache dictionaries are initialised empty at the start
of every epoch (rinex.py lines 305-308 are inside the per-epoch `while`
loop). -/
def v2Epoch (cfg : V2Config) (sats : List Char) : V2EpochState × List Bool :=
  v2EpochFrom cfg
    { phase_obs_index := [], pr_obs_index := [], attempts := [] } sats

/-- A whole v2 stream: concatenated resolution-attempt log and per-epoch
yield flags. -/
def v2Stream (cfg : V2Config) : List (List Char) → List Char × List (List Bool)
  | [] => ([], [])
  | sats :: rest =>
    let q := v2Epoch cfg sats
    let r := v2Stream cfg rest
    (q.1.attempts ++ r.1, q.2 :: r.2)

/-- A v3 header declaring only an `S1C` code for GPS: band resolution for
system `G` fails on it. -/
def v3FailConfig : V3Config :=
  { obs_types := [('G', [['S', '1', 'C']])], band_priority := BAND_PRIORITY }

/-- A v3 header declaring `C1C, L1C, L2W, C2W` for GPS: band resolution
for system `G` succeeds on it. -/
def v3OkConfig : V3Config :=
  { obs_types :=
      [('G', [['C', '1', 'C'], ['L', '1', 'C'], ['L', '2', 'W'],
              ['C', '2', 'W']])],
    band_priority := BAND_PRIORITY }

/-- A v2 header declaring `L1 L2 P1 P2`: both phase and pseudorange
resolution for GPS succeed on it. -/
def v2OkConfig : V2Config :=
  { obs_types := [['L', '1'], ['L', '2'], ['P', '1'], ['P', '2']],
    band_priority := BAND_PRIORITY,
    pr_obs_priority := fun _ => [('P', 'P'), ('C', 'C'), ('C', 'P')] }

/-! ## Theorems

### Folding helpers for `fetch_slot_freq_num` -/

theorem keyfold_mem (q : Nat) :
    ∀ (l : List Nat) (k0 : Option Nat) (k : Nat),
      l.foldl (fun a ts => if qualifies q ts then some ts else a) k0 =
        some k →
      (qualifies q k ∧ k ∈ l) ∨ k0 = some k := by
  intro l
  induction l with
  | nil => intro k0 k h; exact Or.inr h
  | cons x xs ih =>
    intro k0 k h
    simp only [List.foldl_cons] at h
    by_cases hp : qualifies q x
    · rw [if_pos hp] at h
      rcases ih (some x) k h with h1 | h2
      · exact Or.inl ⟨h1.1, List.mem_cons_of_mem _ h1.2⟩
      · rw [← Option.some.inj h2]
        exact Or.inl ⟨hp, List.mem_cons_self _ _⟩
    · rw [if_neg hp] at h
      rcases ih k0 k h with h1 | h2
      · exact Or.inl ⟨h1.1, List.mem_cons_of_mem _ h1.2⟩
      · exact Or.inr h2

theorem keyfold_none (q : Nat) :
    ∀ (l : List Nat), (∀ x ∈ l, ¬ qualifies q x) →
      ∀ k0, l.foldl (fun a ts => if qualifies q ts then some ts else a) k0 =
        k0 := by
  intro l
  induction l with
  | nil => intro _ k0; rfl
  | cons x xs ih =>
    intro h k0
    simp only [List.foldl_cons, if_neg (h x (List.mem_cons_self x xs))]
    exact ih (fun y hy => h y (List.mem_cons_of_mem x hy)) k0

theorem keyfold_some_init (q : Nat) :
    ∀ (l : List Nat) (k : Nat),
      ∃ k2, l.foldl (fun a ts => if qualifies q ts then some ts else a)
        (some k) = some k2 := by
  intro l
  induction l with
  | nil => intro k; exact ⟨k, rfl⟩
  | cons x xs ih =>
    intro k
    simp only [List.foldl_cons]
    by_cases hp : qualifies q x
    · rw [if_pos hp]; exact ih x
    · rw [if_neg hp]; exact ih k

theorem valfold_eq (q : Nat) (entries : List (Nat × ℚ)) :
    ∀ (l : List Nat) (acc : Option ℚ) (k0 : Option Nat),
      (∀ k, k0 = some k → acc = lookupKey k entries) →
      l.foldl
          (fun a ts => if qualifies q ts then lookupKey ts entries else a)
          acc =
        (l.foldl (fun a ts => if qualifies q ts then some ts else a)
            k0).elim acc (fun k => lookupKey k entries) := by
  intro l
  induction l with
  | nil =>
    intro acc k0 h
    cases k0 with
    | none => rfl
    | some k => exact h k rfl
  | cons x xs ih =>
    intro acc k0 h
    by_cases hp : qualifies q x
    · simp only [List.foldl_cons, if_pos hp]
      obtain ⟨k2, hk2⟩ := keyfold_some_init q xs x
      rw [ih (lookupKey x entries) (some x)
            (fun k hk => by rw [Option.some.inj hk]),
          hk2]
      rfl
    · simp only [List.foldl_cons, if_neg hp]
      exact ih acc k0 h

theorem keyfold_some (q : Nat) :
    ∀ (l : List Nat), (∃ x ∈ l, qualifies q x) →
      ∀ k0, ∃ k,
        l.foldl (fun a ts => if qualifies q ts then some ts else a) k0 =
          some k := by
  intro l
  induction l with
  | nil => rintro ⟨x, hx, -⟩; cases hx
  | cons a xs ih =>
    rintro ⟨x, hx, hp⟩ k0
    simp only [List.foldl_cons]
    rcases List.mem_cons.mp hx with rfl | hmem
    · rw [if_pos hp]
      exact keyfold_some_init q xs x
    · exact ih ⟨x, hmem, hp⟩ _

theorem keyfold_max (q : Nat) :
    ∀ (l : List Nat) (k0 : Option Nat) (k x : Nat),
      l.Pairwise (· ≤ ·) →
      l.foldl (fun a ts => if qualifies q ts then some ts else a) k0 =
        some k →
      x ∈ l → qualifies q x → x ≤ k := by
  intro l
  induction l with
  | nil => intro k0 k x _ _ hx; cases hx
  | cons a xs ih =>
    intro k0 k x hpw hfold hx hpx
    rw [List.pairwise_cons] at hpw
    simp only [List.foldl_cons] at hfold
    rcases List.mem_cons.mp hx with rfl | hmem
    · rw [if_pos hpx] at hfold
      rcases keyfold_mem q xs (some x) k hfold with h1 | h2
      · exact hpw.1 k h1.2
      · rw [Option.some.inj h2]
    · exact ih _ k x hpw.2 hfold hmem hpx

theorem lookupKey_mem {κ α : Type} [DecidableEq κ] :
    ∀ (l : List (κ × α)) (k : κ) (v : α),
      lookupKey k l = some v → (k, v) ∈ l := by
  intro l
  induction l with
  | nil => intro k v h; cases h
  | cons x xs ih =>
    intro k v h
    obtain ⟨k2, v2⟩ := x
    simp only [lookupKey] at h
    by_cases he : k2 = k
    · rw [if_pos he] at h
      rw [← he, ← Option.some.inj h]
      exact List.mem_cons_self _ _
    · rw [if_neg he] at h
      exact List.mem_cons_of_mem _ (ih k v h)

theorem lookupKey_isSome {κ α : Type} [DecidableEq κ] :
    ∀ (l : List (κ × α)) (k : κ), k ∈ l.map Prod.fst →
      ∃ v, lookupKey k l = some v := by
  intro l
  induction l with
  | nil => intro k hk; cases hk
  | cons x xs ih =>
    intro k hk
    obtain ⟨k2, v2⟩ := x
    simp only [lookupKey]
    by_cases he : k2 = k
    · rw [if_pos he]; exact ⟨v2, rfl⟩
    · rw [if_neg he]
      apply ih
      rcases List.mem_cons.mp hk with h | h
      · exact absurd h.symm he
      · exact h

theorem fetch_eq (q slot : Nat) (table : List (Nat × List (Nat × ℚ)))
    (entries : List (Nat × ℚ)) (hlook : lookupKey slot table = some entries) :
    fetch_slot_freq_num q slot table =
      match
        (List.insertionSort (· ≤ ·) (entries.map Prod.fst)).foldl
          (fun acc ts =>
            if qualifies q ts then lookupKey ts entries else acc) none with
      | some v => .ok v
      | none =>
        match List.insertionSort (· ≤ ·) (entries.map Prod.fst) with
        | [] => .error .indexError
        | t0 :: _ =>
          if dateOf q = dateOf t0 then
            match lookupKey t0 entries with
            | some v => .ok v
            | none => .error .indexError
          else .error .channelNotFound := by
  unfold fetch_slot_freq_num
  rw [hlook]

/-- C1: for every frequency-channel table, slot and query timestamp,
`fetch_slot_freq_num` fails with the slot-not-found error when the slot is
absent; otherwise it returns the channel of some latest stored timestamp
that is `≤` the query and shares its calendar date, and when no stored
timestamp qualifies it falls back to the channel of an earliest stored
timestamp exactly when that timestamp shares the query's calendar date,
failing with the channel-not-found error otherwise.  In particular, on the
table `{slot 2: {2016-12-08T00:15 -> -3, 2016-12-08T10:15 -> -4,
2016-12-08T13:15 -> -5}}` the queries `2016-12-08T00:00`,
`2016-12-08T12:12`, `2016-12-08T13:16` and `2017-12-08T00:00` give `-3`,
`-4`, `-5` and the channel-not-found error. -/
theorem fetch_slot_freq_num_spec (q slot : Nat)
    (table : List (Nat × List (Nat × ℚ))) :
    (lookupKey slot table = none →
      fetch_slot_freq_num q slot table = .error .slotNotFound) ∧
    (∀ entries, lookupKey slot table = some entries → entries ≠ [] →
      ((∃ pr ∈ entries, qualifies q pr.1 ∧
          fetch_slot_freq_num q slot table = .ok pr.2 ∧
          ∀ pr2 ∈ entries, qualifies q pr2.1 → pr2.1 ≤ pr.1) ∨
       ((∀ pr ∈ entries, ¬ qualifies q pr.1) ∧
        ∃ pr ∈ entries, (∀ pr2 ∈ entries, pr.1 ≤ pr2.1) ∧
          fetch_slot_freq_num q slot table =
            (if dateOf q = dateOf pr.1 then .ok pr.2
             else .error .channelNotFound)))) ∧
    (fetch_slot_freq_num (toMicro 2016 12 8 0 0 0 0) 2 fcExampleTable =
        .ok (-3) ∧
     fetch_slot_freq_num (toMicro 2016 12 8 12 12 0 0) 2 fcExampleTable =
        .ok (-4) ∧
     fetch_slot_freq_num (toMicro 2016 12 8 13 16 0 0) 2 fcExampleTable =
        .ok (-5) ∧
     fetch_slot_freq_num (toMicro 2017 12 8 0 0 0 0) 2 fcExampleTable =
        .error .channelNotFound) := by
  refine ⟨?_, ?_, by decide, by decide, by decide, by decide⟩
  · intro h
    unfold fetch_slot_freq_num
    rw [h]
  · intro entries hlook hne
    have hpw : (List.insertionSort (· ≤ ·)
        (entries.map Prod.fst)).Pairwise (· ≤ ·) :=
      List.sorted_insertionSort (· ≤ ·) (entries.map Prod.fst)
    by_cases hq : ∃ pr ∈ entries, qualifies q pr.1
    · left
      obtain ⟨pm, hpm, hpmq⟩ := hq
      have hpk : pm.1 ∈ List.insertionSort (· ≤ ·) (entries.map Prod.fst) :=
        (List.mem_insertionSort (· ≤ ·)).mpr
          (List.mem_map_of_mem Prod.fst hpm)
      obtain ⟨k, hk⟩ :=
        keyfold_some q (List.insertionSort (· ≤ ·) (entries.map Prod.fst))
          ⟨pm.1, hpk, hpmq⟩ none
      have hkmem : qualifies q k ∧
          k ∈ List.insertionSort (· ≤ ·) (entries.map Prod.fst) := by
        rcases keyfold_mem q _ none k hk with h1 | h2
        · exact h1
        · cases h2
      obtain ⟨v, hkv⟩ := lookupKey_isSome entries k
        ((List.mem_insertionSort (· ≤ ·)).mp hkmem.2)
      refine ⟨(k, v), lookupKey_mem entries k v hkv, hkmem.1, ?_, ?_⟩
      · rw [fetch_eq q slot table entries hlook,
          valfold_eq q entries _ none none (fun j hj => by cases hj), hk,
          show ((some k).elim none fun j => lookupKey j entries) = some v
            from hkv]
      · intro pr2 hpr2 hq2
        exact keyfold_max q _ none k pr2.1 hpw hk
          ((List.mem_insertionSort (· ≤ ·)).mpr
            (List.mem_map_of_mem Prod.fst hpr2)) hq2
    · right
      push_neg at hq
      refine ⟨hq, ?_⟩
      have hkeysne : entries.map Prod.fst ≠ [] := by
        intro hnil
        exact hne (List.map_eq_nil_iff.mp hnil)
      have hnosat : ∀ x ∈ List.insertionSort (· ≤ ·)
          (entries.map Prod.fst), ¬ qualifies q x := by
        intro x hx
        obtain ⟨pr, hpr, hx2⟩ :=
          List.mem_map.mp ((List.mem_insertionSort (· ≤ ·)).mp hx)
        rw [← hx2]
        exact hq pr hpr
      have hnone : (List.insertionSort (· ≤ ·)
            (entries.map Prod.fst)).foldl
          (fun acc ts =>
            if qualifies q ts then lookupKey ts entries else acc) none =
          none := by
        rw [valfold_eq q entries _ none none (fun j hj => by cases hj),
          keyfold_none q _ hnosat none]
        rfl
      cases hsort : List.insertionSort (· ≤ ·) (entries.map Prod.fst) with
      | nil =>
        exfalso
        apply hkeysne
        have hperm := (List.perm_insertionSort (· ≤ ·)
          (entries.map Prod.fst)).symm
        rw [hsort] at hperm
        exact hperm.eq_nil
      | cons t0 rest =>
        have ht0 : t0 ∈ entries.map Prod.fst := by
          rw [← List.mem_insertionSort (· ≤ ·), hsort]
          exact List.mem_cons_self _ _
        obtain ⟨v0, hv0⟩ := lookupKey_isSome entries t0 ht0
        refine ⟨(t0, v0), lookupKey_mem entries t0 v0 hv0, ?_, ?_⟩
        · intro pr2 hpr2
          have hmem : pr2.1 ∈ t0 :: rest := by
            rw [← hsort]
            exact (List.mem_insertionSort (· ≤ ·)).mpr
              (List.mem_map_of_mem Prod.fst hpr2)
          rw [hsort, List.pairwise_cons] at hpw
          rcases List.mem_cons.mp hmem with rfl | hmem2
          · exact le_refl _
          · exact hpw.1 _ hmem2
        · rw [fetch_eq q slot table entries hlook, hnone, hsort]
          show (if dateOf q = dateOf t0 then
            match lookupKey t0 entries with
            | some v => Except.ok v
            | none => Except.error FreqNumError.indexError
            else Except.error FreqNumError.channelNotFound) = _
          rw [hv0]

/-- Witness for C1: the spec theorem applied to the worked example, at an
unknown slot and at a query with qualifying entries. -/
theorem fetch_slot_freq_num_spec_witness :
    fetch_slot_freq_num (toMicro 2016 12 8 0 0 0 0) 5 fcExampleTable =
      .error .slotNotFound ∧
    ((∃ pr ∈ fcExampleEntries,
        qualifies (toMicro 2016 12 8 12 12 0 0) pr.1 ∧
        fetch_slot_freq_num (toMicro 2016 12 8 12 12 0 0) 2 fcExampleTable =
          .ok pr.2 ∧
        ∀ pr2 ∈ fcExampleEntries,
          qualifies (toMicro 2016 12 8 12 12 0 0) pr2.1 → pr2.1 ≤ pr.1) ∨
     ((∀ pr ∈ fcExampleEntries,
        ¬ qualifies (toMicro 2016 12 8 12 12 0 0) pr.1) ∧
      ∃ pr ∈ fcExampleEntries,
        (∀ pr2 ∈ fcExampleEntries, pr.1 ≤ pr2.1) ∧
        fetch_slot_freq_num (toMicro 2016 12 8 12 12 0 0) 2 fcExampleTable =
          (if dateOf (toMicro 2016 12 8 12 12 0 0) = dateOf pr.1 then
            .ok pr.2
           else .error .channelNotFound))) :=
  ⟨(fetch_slot_freq_num_spec (toMicro 2016 12 8 0 0 0 0) 5 fcExampleTable).1
      (by decide),
   (fetch_slot_freq_num_spec (toMicro 2016 12 8 12 12 0 0) 2
      fcExampleTable).2.1 fcExampleEntries (by decide) (by decide)⟩

set_option maxRecDepth 4096 in
/-- C6: for epoch field lists accepted by `validate_epoch`, a two-digit
year field `y` in 89..99 is read as `1900 + y` and `y` in 0..88 as
`2000 + y`; a seconds (resp. minutes) field in [60, 120] adds the excess
over 59 (resp. 60 times it) as a time delta while the field is clamped to
59; in particular a seconds field of 60 yields the timestamp of the same
fields with the minute incremented and seconds 0, whose seconds component
is 0. -/
theorem validate_epoch_spec :
    (∀ y rest, 89 ≤ y → y ≤ 99 →
      validate_epoch (y :: rest) = validate_epoch ((1900 + y) :: rest)) ∧
    (∀ y rest, y ≤ 88 →
      validate_epoch (y :: rest) = validate_epoch ((2000 + y) :: rest)) ∧
    (∀ y mo d h mi s us, 60 ≤ s → s ≤ 120 →
      validate_epoch [y, mo, d, h, mi, s, us] =
        (validate_epoch [y, mo, d, h, mi, 59, us]).map
          (fun t => t + (s - 59) * 1000000)) ∧
    (∀ y mo d h mi s us, 60 ≤ mi → mi ≤ 120 →
      validate_epoch [y, mo, d, h, mi, s, us] =
        (validate_epoch [y, mo, d, h, 59, s, us]).map
          (fun t => t + 60 * (mi - 59) * 1000000)) ∧
    (∀ y mo d h mi us, mi ≤ 58 →
      validate_epoch [y, mo, d, h, mi, 60, us] =
        validate_epoch [y, mo, d, h, mi + 1, 0, us]) ∧
    (∀ y mo d h mi us t,
      validate_epoch [y, mo, d, h, mi, 60, us] = some t →
      t / 1000000 % 60 = 0) := by
  refine ⟨?_, ?_, ?_, ?_, ?_, ?_⟩
  · intro y rest h1 h2
    simp only [validate_epoch]
    congr 1
    unfold pivotYear
    rw [if_pos (by omega), if_pos h1, if_neg (by omega)]
    omega
  · intro y rest h1
    simp only [validate_epoch]
    congr 1
    unfold pivotYear
    rw [if_pos (by omega), if_neg (by omega), if_neg (by omega)]
    omega
  · intro y mo d h mi s us h1 h2
    simp only [validate_epoch, validateRest,
      if_pos (show 60 ≤ s ∧ s ≤ 120 from ⟨h1, h2⟩),
      if_neg (show ¬(60 ≤ 59 ∧ 59 ≤ 120) by omega)]
    split_ifs
    · simp only [Option.map_some', Option.some.injEq]
      unfold toMicro
      omega
    · rfl
    · simp only [Option.map_some', Option.some.injEq]
      unfold toMicro
      omega
    · rfl
  · intro y mo d h mi s us h1 h2
    simp only [validate_epoch, validateRest,
      if_pos (show 60 ≤ mi ∧ mi ≤ 120 from ⟨h1, h2⟩),
      if_neg (show ¬(60 ≤ 59 ∧ 59 ≤ 120) by omega)]
    split_ifs
    · simp only [Option.map_some', Option.some.injEq]
      unfold toMicro
      omega
    · rfl
    · simp only [Option.map_some', Option.some.injEq]
      unfold toMicro
      omega
    · rfl
  · intro y mo d h mi us h1
    simp only [validate_epoch, validateRest,
      if_pos (show 60 ≤ 60 ∧ 60 ≤ 120 by omega),
      if_neg (show ¬(60 ≤ mi ∧ mi ≤ 120) by omega),
      if_neg (show ¬(60 ≤ 0 ∧ (0 : Nat) ≤ 120) by omega),
      if_neg (show ¬(60 ≤ mi + 1 ∧ mi + 1 ≤ 120) by omega)]
    split_ifs with hA hB hC
    · simp only [Option.some.injEq]
      unfold toMicro
      omega
    · exfalso; omega
    · exfalso; omega
    · rfl
  · intro y mo d h mi us t hval
    simp only [validate_epoch, validateRest,
      if_pos (show 60 ≤ 60 ∧ 60 ≤ 120 by omega)] at hval
    split_ifs at hval
    · have ht := Option.some.inj hval
      unfold toMicro at ht
      omega
    · have ht := Option.some.inj hval
      unfold toMicro at ht
      omega

/-- Witness for C6: the year pivot at 89, 88 and 0, the seconds and
minutes overflow corrections, and the seconds-field-60 normalisation, on
concrete epochs. -/
theorem validate_epoch_spec_witness :
    validate_epoch [89, 1, 1, 0, 0, 0, 0] =
      validate_epoch [1989, 1, 1, 0, 0, 0, 0] ∧
    validate_epoch [88, 1, 1, 0, 0, 0, 0] =
      validate_epoch [2088, 1, 1, 0, 0, 0, 0] ∧
    validate_epoch [0, 1, 1, 0, 0, 0, 0] =
      validate_epoch [2000, 1, 1, 0, 0, 0, 0] ∧
    validate_epoch [2016, 1, 1, 0, 0, 61, 0] =
      (validate_epoch [2016, 1, 1, 0, 0, 59, 0]).map
        (fun t => t + (61 - 59) * 1000000) ∧
    validate_epoch [2016, 1, 1, 0, 61, 5, 0] =
      (validate_epoch [2016, 1, 1, 0, 59, 5, 0]).map
        (fun t => t + 60 * (61 - 59) * 1000000) ∧
    validate_epoch [2016, 1, 1, 0, 0, 60, 0] =
      validate_epoch [2016, 1, 1, 0, 1, 0, 0] ∧
    toMicro 2016 1 1 0 1 0 0 / 1000000 % 60 = 0 :=
  ⟨validate_epoch_spec.1 89 [1, 1, 0, 0, 0, 0] (by decide) (by decide),
   validate_epoch_spec.2.1 88 [1, 1, 0, 0, 0, 0] (by decide),
   validate_epoch_spec.2.1 0 [1, 1, 0, 0, 0, 0] (by decide),
   validate_epoch_spec.2.2.1 2016 1 1 0 0 61 0 (by decide) (by decide),
   validate_epoch_spec.2.2.2.1 2016 1 1 0 61 5 0 (by decide) (by decide),
   validate_epoch_spec.2.2.2.2.1 2016 1 1 0 0 0 (by decide),
   validate_epoch_spec.2.2.2.2.2 2016 1 1 0 0 0
     (toMicro 2016 1 1 0 1 0 0) (by decide)⟩

/-- C3: the derived phase TEC is the explicit absent value whenever either
phase is exactly zero, never a computed zero; otherwise it is
`K(f1, f2) * (c/f1 * phase1 - c/f2 * phase2)` with `c = 299792458` and
`f1, f2` the frequencies of the two selected bands. -/
theorem phase_tec_spec (t : Tec) :
    (t.phase1 = 0 ∨ t.phase2 = 0 → t.phase_tec = .ok none) ∧
    (∀ f1 f2, t.phase1 ≠ 0 → t.phase2 ≠ 0 →
      t.get_freq (t.phase_code1, t.phase_code2) = .ok (f1, f2) →
      t.phase_tec = .ok (some (Tec.factor f1 f2 *
        ((299792458 : ℚ) / f1 * t.phase1 -
          (299792458 : ℚ) / f2 * t.phase2)))) := by
  constructor
  · rintro (h | h) <;> unfold Tec.phase_tec
    · rw [if_pos h]
    · by_cases h1 : t.phase1 = 0
      · rw [if_pos h1]
      · rw [if_neg h1, if_pos h]
  · intro f1 f2 h1 h2 hf
    unfold Tec.phase_tec
    rw [if_neg h1, if_neg h2, hf]
    rfl

/-- Witness for C3: the phase-TEC theorem applied to a concrete GPS record
with codes L1/L2, and to the same record with an absent first phase. -/
theorem phase_tec_spec_witness :
    { tecExampleG with phase1 := 0 }.phase_tec = .ok none ∧
    tecExampleG.phase_tec = .ok (some (Tec.factor 1575420000 1227600000 *
      ((299792458 : ℚ) / 1575420000 * 1000 -
        (299792458 : ℚ) / 1227600000 * 2000))) :=
  ⟨(phase_tec_spec { tecExampleG with phase1 := 0 }).1 (Or.inl (by decide)),
   (phase_tec_spec tecExampleG).2 1575420000 1227600000 (by decide)
     (by decide) (by decide)⟩

/-- C4: the derived pseudorange TEC is the explicit absent value whenever
either range is exactly zero; otherwise it is `K(f1, f2) * (range2 -
range1)` (sign reversed relative to phase TEC), where
`K(f1, f2) = (1/40.308) * f1^2 f2^2 / (f1^2 - f2^2) * 1e-16`. -/
theorem p_range_tec_spec (t : Tec) :
    (t.p_range1 = 0 ∨ t.p_range2 = 0 → t.p_range_tec = .ok none) ∧
    (∀ f1 f2, t.p_range1 ≠ 0 → t.p_range2 ≠ 0 →
      t.get_freq (t.phase_code1, t.phase_code2) = .ok (f1, f2) →
      t.p_range_tec = .ok (some (Tec.factor f1 f2 *
        (t.p_range2 - t.p_range1)))) ∧
    (∀ f1 f2 : ℚ, Tec.factor f1 f2 =
      1 / 40.308 * (f1 ^ 2 * f2 ^ 2) / (f1 ^ 2 - f2 ^ 2) * (1 / 10 ^ 16)) := by
  refine ⟨?_, ?_, fun f1 f2 => rfl⟩
  · rintro (h | h) <;> unfold Tec.p_range_tec
    · rw [if_pos h]
    · by_cases h1 : t.p_range1 = 0
      · rw [if_pos h1]
      · rw [if_neg h1, if_pos h]
  · intro f1 f2 h1 h2 hf
    unfold Tec.get_freq at hf
    cases hsat : t.satellite with
    | nil => rw [hsat] at hf; cases hf
    | cons c rest =>
      rw [hsat] at hf
      have hf2 : Tec.get_freq_aux (t.phase_code1, t.phase_code2) c.toUpper
          t.glo_freq_num = .ok (f1, f2) := hf
      unfold Tec.p_range_tec
      rw [if_neg h1, if_neg h2]
      unfold Tec.calc_p_range_tec
      rw [hsat]
      simp only [hf2]
      rfl

/-- Witness for C4: the pseudorange-TEC theorem applied to a concrete GPS
record, and to the same record with an absent first range. -/
theorem p_range_tec_spec_witness :
    { tecExampleG with p_range1 := 0 }.p_range_tec = .ok none ∧
    tecExampleG.p_range_tec = .ok (some (Tec.factor 1575420000 1227600000 *
      ((5 : ℚ) - 3))) :=
  ⟨(p_range_tec_spec { tecExampleG with p_range1 := 0 }).1
      (Or.inl (by decide)),
   (p_range_tec_spec tecExampleG).2.1 1575420000 1227600000 (by decide)
     (by decide) (by decide)⟩

/-- C5: the validity bitmask is the sum of `2^2` for a non-zero band-2 LLI,
`2^3` for a non-zero band-1 LLI, `2^4`/`2^5` for a zero band-2/band-1
range, `2^6`/`2^7` for a zero band-2/band-1 phase, with bits 0 and 1 always
zero; all observables present with zero LLIs gives 0, and only the band-1
range missing gives 32. -/
theorem validity_spec (t : Tec) :
    t.validity =
      (if t.lli2 ≠ 0 then 2 ^ 2 else 0) +
      (if t.lli1 ≠ 0 then 2 ^ 3 else 0) +
      (if t.p_range2 = 0 then 2 ^ 4 else 0) +
      (if t.p_range1 = 0 then 2 ^ 5 else 0) +
      (if t.phase2 = 0 then 2 ^ 6 else 0) +
      (if t.phase1 = 0 then 2 ^ 7 else 0) ∧
    t.validity % 4 = 0 ∧
    (t.phase1 ≠ 0 → t.phase2 ≠ 0 → t.p_range1 ≠ 0 → t.p_range2 ≠ 0 →
      t.lli1 = 0 → t.lli2 = 0 → t.validity = 0) ∧
    (t.phase1 ≠ 0 → t.phase2 ≠ 0 → t.p_range1 = 0 → t.p_range2 ≠ 0 →
      t.lli1 = 0 → t.lli2 = 0 → t.validity = 32) := by
  refine ⟨?_, ?_, ?_, ?_⟩
  · unfold Tec.validity
    simp only [List.foldl_cons, List.foldl_nil]
    split_ifs <;> norm_num
  · unfold Tec.validity
    simp only [List.foldl_cons, List.foldl_nil]
    split_ifs <;> norm_num
  · intro h1 h2 h3 h4 h5 h6
    unfold Tec.validity
    simp only [List.foldl_cons, List.foldl_nil]
    rw [if_neg (show ¬t.lli2 ≠ 0 from fun hc => hc h6),
      if_neg (show ¬t.lli1 ≠ 0 from fun hc => hc h5),
      if_neg h4, if_neg h3, if_neg h2, if_neg h1]
  · intro h1 h2 h3 h4 h5 h6
    unfold Tec.validity
    simp only [List.foldl_cons, List.foldl_nil]
    rw [if_neg (show ¬t.lli2 ≠ 0 from fun hc => hc h6),
      if_neg (show ¬t.lli1 ≠ 0 from fun hc => hc h5),
      if_neg h4, if_pos h3, if_neg h2, if_neg h1]
    norm_num

/-- Witness for C5: the validity theorem applied to a concrete record with
all observables present (bitmask 0) and to the same record with the band-1
range missing (bitmask 32). -/
theorem validity_spec_witness :
    tecExampleG.validity = 0 ∧
    { tecExampleG with p_range1 := 0 }.validity = 32 :=
  ⟨(validity_spec tecExampleG).2.2.1 (by decide) (by decide) (by decide)
      (by decide) (by decide) (by decide),
   (validity_spec { tecExampleG with p_range1 := 0 }).2.2.2 (by decide)
      (by decide) (by decide) (by decide) (by decide) (by decide)⟩

/-- C10: constructing a `Tec` record for a satellite whose system letter is
`R` (case-insensitively) with no frequency number fails with a `TecError`
and produces no record; for any other system letter the missing frequency
number is accepted and construction succeeds with the initial field
values. -/
theorem mk_init_spec :
    (∀ ts tsys (c : Char) rest, c.toUpper = 'R' →
      Tec.mk_init ts tsys (c :: rest) none = .error .tecError) ∧
    (∀ ts tsys (c : Char) rest, c.toUpper ≠ 'R' →
      Tec.mk_init ts tsys (c :: rest) none =
        .ok { timestamp := ts, time_system := tsys, satellite := c :: rest,
              glo_freq_num := none }) ∧
    (∀ ts tsys (c : Char) rest fn,
      Tec.mk_init ts tsys (c :: rest) (some fn) =
        .ok { timestamp := ts, time_system := tsys, satellite := c :: rest,
              glo_freq_num := some fn }) := by
  refine ⟨?_, ?_, ?_⟩
  · intro ts tsys c rest h
    simp only [Tec.mk_init]
    rw [if_pos ⟨h, trivial⟩]
  · intro ts tsys c rest h
    simp only [Tec.mk_init]
    rw [if_neg (fun hc => h hc.1)]
  · intro ts tsys c rest fn
    simp only [Tec.mk_init]
    rw [if_neg (fun hc => Option.noConfusion hc.2)]

/-- Witness for C10: construction fails for `R01` and `r01` without a
frequency number, succeeds for `G01` without one and for `R01` with one. -/
theorem mk_init_spec_witness :
    Tec.mk_init 0 [] ['R', '0', '1'] none = .error .tecError ∧
    Tec.mk_init 0 [] ['r', '0', '1'] none = .error .tecError ∧
    Tec.mk_init 0 [] ['G', '0', '1'] none =
      .ok { timestamp := 0, time_system := [], satellite := ['G', '0', '1'],
            glo_freq_num := none } ∧
    Tec.mk_init 0 [] ['R', '0', '1'] (some 5) =
      .ok { timestamp := 0, time_system := [], satellite := ['R', '0', '1'],
            glo_freq_num := some 5 } :=
  ⟨mk_init_spec.1 0 [] 'R' ['0', '1'] (by decide),
   mk_init_spec.1 0 [] 'r' ['0', '1'] (by decide),
   mk_init_spec.2.1 0 [] 'G' ['0', '1'] (by decide),
   mk_init_spec.2.2 0 [] 'R' ['0', '1'] 5⟩

theorem bdsCorrectCodes_eq :
    ∀ (codes : List ObsCode), (∀ t ∈ codes, 2 ≤ t.length) →
      bdsCorrectCodes codes = some (codes.map (fun t =>
        if t[1]? = some '1' then t.map (fun c => if c = '1' then '2' else c)
        else t)) := by
  intro codes
  induction codes with
  | nil => intro _; rfl
  | cons t rest ih =>
    intro h
    have ht := h t (List.mem_cons_self t rest)
    rcases t with _ | ⟨c0, _ | ⟨c1, t3⟩⟩
    · simp at ht
    · simp at ht
    · simp only [bdsCorrectCodes, List.getElem?_cons_succ,
        List.getElem?_cons_zero,
        ih (fun u hu => h u (List.mem_cons_of_mem _ hu)), List.map_cons]
      by_cases hc : c1 = '1' <;> simp [hc]

/-- C7: in a v3 header at format version at least 3.02, every declared
BeiDou observation code whose band digit is `'1'` is rewritten so that its
band digit becomes `'2'` (every other character that is not `'1'` is kept),
and `C1I` becomes exactly `C2I`; codes with another band digit, codes of
other systems and headers below version 3.02 are left unchanged. -/
theorem correct_obs_types_spec :
    (∀ (version : ℚ) (codes : List ObsCode), 3.02 ≤ version →
      (∀ t ∈ codes, 2 ≤ t.length) →
      ∃ codes2, correct_obs_types version 'C' codes = some codes2 ∧
        codes2.length = codes.length ∧
        ∀ (i : Nat) (t t2 : ObsCode), codes[i]? = some t →
          codes2[i]? = some t2 →
          (t[1]? = some '1' →
            t2 = t.map (fun c => if c = '1' then '2' else c) ∧
            t2[1]? = some '2' ∧
            ∀ (j : Nat) (c : Char), t[j]? = some c → c ≠ '1' →
              t2[j]? = some c) ∧
          (t[1]? ≠ some '1' → t2 = t)) ∧
    (∀ (version : ℚ) (sat_sys : Char) codes, sat_sys ≠ 'C' →
      correct_obs_types version sat_sys codes = some codes) ∧
    (∀ (version : ℚ) (sat_sys : Char) codes, version < 3.02 →
      correct_obs_types version sat_sys codes = some codes) ∧
    correct_obs_types 3.02 'C' [['C', '1', 'I']] = some [['C', '2', 'I']] := by
  refine ⟨?_, ?_, ?_, ?_⟩
  · intro version codes hv hlen
    refine ⟨codes.map (fun t =>
      if t[1]? = some '1' then t.map (fun c => if c = '1' then '2' else c)
      else t), ?_, List.length_map _ _, ?_⟩
    · unfold correct_obs_types
      rw [if_pos ⟨hv, rfl⟩, bdsCorrectCodes_eq codes hlen]
    · intro i t t2 hti ht2i
      rw [List.getElem?_map, hti, Option.map_some'] at ht2i
      have ht2f := (Option.some.inj ht2i).symm
      constructor
      · intro h1
        rw [if_pos h1] at ht2f
        refine ⟨ht2f, ?_, ?_⟩
        · rw [ht2f, List.getElem?_map, h1]
          rfl
        · intro j c hj hc
          rw [ht2f, List.getElem?_map, hj, Option.map_some']
          rw [if_neg hc]
      · intro h1
        rw [if_neg h1] at ht2f
        exact ht2f
  · intro version sat_sys codes h
    unfold correct_obs_types
    rw [if_neg (fun hc => h hc.2)]
  · intro version sat_sys codes h
    unfold correct_obs_types
    rw [if_neg (fun hc => absurd hc.1 (not_le.mpr h))]
  · unfold correct_obs_types
    rw [if_pos ⟨le_refl _, rfl⟩]
    decide

/-- Witness for C7: the correction theorem applied to a concrete header
record (`C1I` at version 3.02), to a non-BeiDou system, and to a version
below 3.02. -/
theorem correct_obs_types_spec_witness :
    (∃ codes2,
      correct_obs_types 3.02 'C' [['C', '1', 'I']] = some codes2 ∧
      codes2.length = [[('C' : Char), '1', 'I']].length ∧
      ∀ (i : Nat) (t t2 : ObsCode), [[('C' : Char), '1', 'I']][i]? = some t →
        codes2[i]? = some t2 →
        (t[1]? = some '1' →
          t2 = t.map (fun c => if c = '1' then '2' else c) ∧
          t2[1]? = some '2' ∧
          ∀ (j : Nat) (c : Char), t[j]? = some c → c ≠ '1' →
            t2[j]? = some c) ∧
        (t[1]? ≠ some '1' → t2 = t)) ∧
    correct_obs_types 3.02 'G' [['C', '1', 'C']] = some [['C', '1', 'C']] ∧
    correct_obs_types 3.01 'C' [['C', '1', 'I']] = some [['C', '1', 'I']] :=
  ⟨correct_obs_types_spec.1 3.02 [['C', '1', 'I']] (le_refl _) (by decide),
   correct_obs_types_spec.2.1 3.02 'G' [['C', '1', 'C']] (by decide),
   correct_obs_types_spec.2.2.1 3.01 'C' [['C', '1', 'I']] (by norm_num)⟩

/-- C8: the frequency-channel table builder `collect_freq_nums` rejects
every navigation stream whose header version exceeds 2.11 — including all
of 3.0-3.03, with any file type — before reading a single message, while
the `nav` factory accepts 2.0-2.11 with type `G` only and 3.0-3.03 with any
type; a version at most 2.11 with type `G` is accepted by
`collect_freq_nums` and the table is built. -/
theorem collect_freq_nums_version_gate :
    (∀ msgs, collect_freq_nums 3.0 'G' msgs = .error .unsupportedVersion) ∧
    (∀ msgs, collect_freq_nums 3.03 'N' msgs = .error .unsupportedVersion) ∧
    nav_select 3.0 'G' = .ok .v3 ∧
    nav_select 3.03 'N' = .ok .v3 ∧
    (∀ msgs, collect_freq_nums 2.01 'N' msgs = .error .unsupportedType) ∧
    nav_select 2.01 'N' = .error .unsupportedType ∧
    collect_freq_nums 2.01 'G' [(1, toMicro 2016 1 1 0 15 0 0, 1)] =
      .ok [(1, [(toMicro 2016 1 1 0 15 0 0, 1)])] ∧
    nav_select 2.01 'G' = .ok .v2 ∧
    nav_select 7.0 'M' = .error .unsupportedVersion := by
  refine ⟨?_, ?_, ?_, ?_, ?_, ?_, ?_, ?_, ?_⟩
  · intro msgs
    rw [collect_freq_nums, if_pos (by norm_num)]
  · intro msgs
    rw [collect_freq_nums, if_pos (by norm_num)]
  · rw [nav_select, if_neg (by rintro ⟨-, h⟩; norm_num at h),
      if_pos (by constructor <;> norm_num)]
  · rw [nav_select, if_neg (by rintro ⟨-, h⟩; norm_num at h),
      if_pos (by constructor <;> norm_num)]
  · intro msgs
    rw [collect_freq_nums, if_neg (by norm_num), if_pos (by decide)]
  · rw [nav_select, if_pos (by constructor <;> norm_num), if_pos (by decide)]
  · rw [collect_freq_nums, if_neg (by norm_num),
      if_neg (show ¬('G' ≠ 'G') from fun h => h rfl)]
    decide
  · rw [nav_select, if_pos (by constructor <;> norm_num),
      if_neg (show ¬('G' ≠ 'G') from fun h => h rfl)]
  · rw [nav_select, if_neg (by rintro ⟨-, h⟩; norm_num at h),
      if_neg (by rintro ⟨-, h⟩; norm_num at h)]

/-! ### Cache lemmas for the v2/v3 stream decoders -/

theorem lookupKey_append {κ α : Type} [DecidableEq κ] :
    ∀ (l1 l2 : List (κ × α)) (k : κ),
      lookupKey k (l1 ++ l2) =
        match lookupKey k l1 with
        | some v => some v
        | none => lookupKey k l2 := by
  intro l1
  induction l1 with
  | nil => intro l2 k; rfl
  | cons x xs ih =>
    intro l2 k
    obtain ⟨k2, v2⟩ := x
    simp only [List.cons_append, lookupKey, List.append_eq]
    by_cases he : k2 = k
    · rw [if_pos he, if_pos he]
    · rw [if_neg he, if_neg he, ih]

theorem lookupKey_append_single_ne {κ α : Type} [DecidableEq κ]
    (l : List (κ × α)) (k k2 : κ) (v : α) (hne : k2 ≠ k)
    (h : lookupKey k l = none) :
    lookupKey k (l ++ [(k2, v)]) = none := by
  rw [lookupKey_append, h]
  simp only [lookupKey]
  rw [if_neg hne]

theorem v3SatStep_hit (cfg : V3Config) (st : V3State) (s : Char)
    (idx : (Nat × Nat) × (Nat × Nat))
    (h : lookupKey s st.obs_indices = some idx) :
    v3SatStep cfg st s = (st, true) := by
  unfold v3SatStep
  rw [h]

theorem v3SatStep_miss_ok (cfg : V3Config) (st : V3State) (s : Char)
    (idx : (Nat × Nat) × (Nat × Nat))
    (h : lookupKey s st.obs_indices = none)
    (hok : indices_according_priority cfg s = .ok idx) :
    v3SatStep cfg st s =
      ({ obs_indices := st.obs_indices ++ [(s, idx)],
         attempts := st.attempts ++ [s] }, true) := by
  unfold v3SatStep
  rw [h, hok]

theorem v3SatStep_miss_err (cfg : V3Config) (st : V3State) (s : Char)
    (h : lookupKey s st.obs_indices = none)
    (herr : indices_according_priority cfg s = .error ()) :
    v3SatStep cfg st s =
      ({ st with attempts := st.attempts ++ [s] }, false) := by
  unfold v3SatStep
  rw [h, herr]

theorem v3Epoch_fail (cfg : V3Config) (sys : Char)
    (herr : indices_according_priority cfg sys = .error ()) :
    ∀ (sats : List Char) (st : V3State),
      lookupKey sys st.obs_indices = none →
      lookupKey sys (v3Epoch cfg st sats).1.obs_indices = none ∧
      (v3Epoch cfg st sats).1.attempts.count sys =
        st.attempts.count sys + sats.count sys ∧
      ∀ i : Nat, sats[i]? = some sys →
        (v3Epoch cfg st sats).2[i]? = some false := by
  intro sats
  induction sats with
  | nil =>
    intro st h
    refine ⟨h, by simp [v3Epoch], ?_⟩
    intro i hi
    simp at hi
  | cons s rest ih =>
    intro st h
    by_cases hs : s = sys
    · subst hs
      have hstep := v3SatStep_miss_err cfg st s h herr
      simp only [v3Epoch, hstep]
      obtain ⟨ih1, ih2, ih3⟩ :=
        ih { st with attempts := st.attempts ++ [s] } h
      refine ⟨ih1, ?_, ?_⟩
      · rw [ih2]
        simp only [List.count_append, List.count_cons]
        simp
        omega
      · intro i hi
        cases i with
        | zero => simp
        | succ n =>
          simp only [List.getElem?_cons_succ] at hi ⊢
          exact ih3 n hi
    · cases hl : lookupKey s st.obs_indices with
      | some idx =>
        have hstep := v3SatStep_hit cfg st s idx hl
        simp only [v3Epoch, hstep]
        obtain ⟨ih1, ih2, ih3⟩ := ih st h
        refine ⟨ih1, ?_, ?_⟩
        · rw [ih2]
          simp [List.count_cons, hs]
        · intro i hi
          cases i with
          | zero => simp at hi; exact absurd hi hs
          | succ n =>
            simp only [List.getElem?_cons_succ] at hi ⊢
            exact ih3 n hi
      | none =>
        cases hres : indices_according_priority cfg s with
        | ok idx =>
          have hstep := v3SatStep_miss_ok cfg st s idx hl hres
          simp only [v3Epoch, hstep]
          obtain ⟨ih1, ih2, ih3⟩ :=
            ih { obs_indices := st.obs_indices ++ [(s, idx)],
                 attempts := st.attempts ++ [s] }
              (lookupKey_append_single_ne _ _ _ _ hs h)
          refine ⟨ih1, ?_, ?_⟩
          · rw [ih2]
            simp [List.count_append, List.count_cons, hs]
          · intro i hi
            cases i with
            | zero => simp at hi; exact absurd hi hs
            | succ n =>
              simp only [List.getElem?_cons_succ] at hi ⊢
              exact ih3 n hi
        | error e =>
          cases e
          have hstep := v3SatStep_miss_err cfg st s hl hres
          simp only [v3Epoch, hstep]
          obtain ⟨ih1, ih2, ih3⟩ :=
            ih { st with attempts := st.attempts ++ [s] } h
          refine ⟨ih1, ?_, ?_⟩
          · rw [ih2]
            simp [List.count_append, List.count_cons, hs]
          · intro i hi
            cases i with
            | zero => simp at hi; exact absurd hi hs
            | succ n =>
              simp only [List.getElem?_cons_succ] at hi ⊢
              exact ih3 n hi

theorem v3StreamFrom_fail (cfg : V3Config) (sys : Char)
    (herr : indices_according_priority cfg sys = .error ()) :
    ∀ (epochs : List (List Char)) (st : V3State),
      lookupKey sys st.obs_indices = none →
      lookupKey sys (v3StreamFrom cfg st epochs).1.obs_indices = none ∧
      (v3StreamFrom cfg st epochs).1.attempts.count sys =
        st.attempts.count sys + (epochs.map (List.count sys)).sum ∧
      ∀ (ei : Nat) sats, epochs[ei]? = some sats →
        ∀ i : Nat, sats[i]? = some sys →
          ∃ flags, (v3StreamFrom cfg st epochs).2[ei]? = some flags ∧
            flags[i]? = some false := by
  intro epochs
  induction epochs with
  | nil =>
    intro st h
    refine ⟨h, by simp [v3StreamFrom], ?_⟩
    intro ei sats hei
    simp at hei
  | cons sats rest ih =>
    intro st h
    obtain ⟨he1, he2, he3⟩ := v3Epoch_fail cfg sys herr sats st h
    simp only [v3StreamFrom]
    obtain ⟨ih1, ih2, ih3⟩ := ih (v3Epoch cfg st sats).1 he1
    refine ⟨ih1, ?_, ?_⟩
    · rw [ih2, he2]
      simp only [List.map_cons, List.sum_cons]
      omega
    · intro ei sats2 hei i hi
      cases ei with
      | zero =>
        simp only [List.getElem?_cons_zero, Option.some.injEq] at hei
        subst hei
        exact ⟨(v3Epoch cfg st sats).2, by simp, he3 i hi⟩
      | succ n =>
        simp only [List.getElem?_cons_succ] at hei ⊢
        exact ih3 n sats2 hei i hi

theorem lookupKey_append_left {κ α : Type} [DecidableEq κ]
    (l1 l2 : List (κ × α)) (k : κ) (v : α)
    (h : lookupKey k l1 = some v) :
    lookupKey k (l1 ++ l2) = some v := by
  rw [lookupKey_append, h]

theorem v3Epoch_cached (cfg : V3Config) (sys : Char)
    (idx0 : (Nat × Nat) × (Nat × Nat)) :
    ∀ (sats : List Char) (st : V3State),
      lookupKey sys st.obs_indices = some idx0 →
      lookupKey sys (v3Epoch cfg st sats).1.obs_indices = some idx0 ∧
      (v3Epoch cfg st sats).1.attempts.count sys =
        st.attempts.count sys ∧
      ∀ i : Nat, sats[i]? = some sys →
        (v3Epoch cfg st sats).2[i]? = some true := by
  intro sats
  induction sats with
  | nil =>
    intro st h
    refine ⟨h, rfl, ?_⟩
    intro i hi
    simp at hi
  | cons s rest ih =>
    intro st h
    by_cases hs : s = sys
    · subst hs
      have hstep := v3SatStep_hit cfg st s idx0 h
      simp only [v3Epoch, hstep]
      obtain ⟨ih1, ih2, ih3⟩ := ih st h
      refine ⟨ih1, ih2, ?_⟩
      intro i hi
      cases i with
      | zero => simp
      | succ n =>
        simp only [List.getElem?_cons_succ] at hi ⊢
        exact ih3 n hi
    · cases hl : lookupKey s st.obs_indices with
      | some idx =>
        have hstep := v3SatStep_hit cfg st s idx hl
        simp only [v3Epoch, hstep]
        obtain ⟨ih1, ih2, ih3⟩ := ih st h
        refine ⟨ih1, ih2, ?_⟩
        intro i hi
        cases i with
        | zero => simp at hi; exact absurd hi hs
        | succ n =>
          simp only [List.getElem?_cons_succ] at hi ⊢
          exact ih3 n hi
      | none =>
        cases hres : indices_according_priority cfg s with
        | ok idx =>
          have hstep := v3SatStep_miss_ok cfg st s idx hl hres
          simp only [v3Epoch, hstep]
          obtain ⟨ih1, ih2, ih3⟩ :=
            ih { obs_indices := st.obs_indices ++ [(s, idx)],
                 attempts := st.attempts ++ [s] }
              (lookupKey_append_left _ _ _ _ h)
          refine ⟨ih1, ?_, ?_⟩
          · rw [ih2]
            simp [List.count_append, List.count_cons, hs]
          · intro i hi
            cases i with
            | zero => simp at hi; exact absurd hi hs
            | succ n =>
              simp only [List.getElem?_cons_succ] at hi ⊢
              exact ih3 n hi
        | error e =>
          cases e
          have hstep := v3SatStep_miss_err cfg st s hl hres
          simp only [v3Epoch, hstep]
          obtain ⟨ih1, ih2, ih3⟩ :=
            ih { st with attempts := st.attempts ++ [s] } h
          refine ⟨ih1, ?_, ?_⟩
          · rw [ih2]
            simp [List.count_append, List.count_cons, hs]
          · intro i hi
            cases i with
            | zero => simp at hi; exact absurd hi hs
            | succ n =>
              simp only [List.getElem?_cons_succ] at hi ⊢
              exact ih3 n hi

theorem v3Epoch_uncached_ok (cfg : V3Config) (sys : Char)
    (idx : (Nat × Nat) × (Nat × Nat))
    (hok : indices_according_priority cfg sys = .ok idx) :
    ∀ (sats : List Char) (st : V3State),
      lookupKey sys st.obs_indices = none →
      ((sys ∈ sats →
          lookupKey sys (v3Epoch cfg st sats).1.obs_indices = some idx ∧
          (v3Epoch cfg st sats).1.attempts.count sys =
            st.attempts.count sys + 1) ∧
       (sys ∉ sats →
          lookupKey sys (v3Epoch cfg st sats).1.obs_indices = none ∧
          (v3Epoch cfg st sats).1.attempts.count sys =
            st.attempts.count sys)) ∧
      ∀ i : Nat, sats[i]? = some sys →
        (v3Epoch cfg st sats).2[i]? = some true := by
  intro sats
  induction sats with
  | nil =>
    intro st h
    refine ⟨⟨fun hm => absurd hm (List.not_mem_nil sys), fun _ => ⟨h, rfl⟩⟩,
      ?_⟩
    intro i hi
    simp at hi
  | cons s rest ih =>
    intro st h
    by_cases hs : s = sys
    · subst hs
      have hstep := v3SatStep_miss_ok cfg st s idx h hok
      simp only [v3Epoch, hstep]
      have hcached : lookupKey s (st.obs_indices ++ [(s, idx)]) = some idx := by
        rw [lookupKey_append, h]
        simp [lookupKey]
      obtain ⟨c1, c2, c3⟩ := v3Epoch_cached cfg s idx rest
        { obs_indices := st.obs_indices ++ [(s, idx)],
          attempts := st.attempts ++ [s] } hcached
      refine ⟨⟨fun _ => ⟨c1, ?_⟩,
        fun hm => absurd (List.mem_cons_self s rest) hm⟩, ?_⟩
      · rw [c2]
        simp [List.count_append]
      · intro i hi
        cases i with
        | zero => simp
        | succ n =>
          simp only [List.getElem?_cons_succ] at hi ⊢
          exact c3 n hi
    · have hmem : sys ∈ s :: rest ↔ sys ∈ rest := by
        rw [List.mem_cons]
        constructor
        · rintro (he | hr)
          · exact absurd he.symm hs
          · exact hr
        · exact Or.inr
      cases hl : lookupKey s st.obs_indices with
      | some idxs =>
        have hstep := v3SatStep_hit cfg st s idxs hl
        simp only [v3Epoch, hstep]
        obtain ⟨⟨ih1, ih2⟩, ih3⟩ := ih st h
        refine ⟨⟨fun hm => ih1 (hmem.mp hm),
          fun hm => ih2 (fun hr => hm (hmem.mpr hr))⟩, ?_⟩
        intro i hi
        cases i with
        | zero => simp at hi; exact absurd hi hs
        | succ n =>
          simp only [List.getElem?_cons_succ] at hi ⊢
          exact ih3 n hi
      | none =>
        cases hres : indices_according_priority cfg s with
        | ok idxs =>
          have hstep := v3SatStep_miss_ok cfg st s idxs hl hres
          simp only [v3Epoch, hstep]
          obtain ⟨⟨ih1, ih2⟩, ih3⟩ :=
            ih { obs_indices := st.obs_indices ++ [(s, idxs)],
                 attempts := st.attempts ++ [s] }
              (lookupKey_append_single_ne _ _ _ _ hs h)
          refine ⟨⟨?_, ?_⟩, ?_⟩
          · intro hm
            obtain ⟨j1, j2⟩ := ih1 (hmem.mp hm)
            refine ⟨j1, ?_⟩
            rw [j2]
            simp [List.count_append, List.count_cons, hs]
          · intro hm
            obtain ⟨j1, j2⟩ := ih2 (fun hr => hm (hmem.mpr hr))
            refine ⟨j1, ?_⟩
            rw [j2]
            simp [List.count_append, List.count_cons, hs]
          · intro i hi
            cases i with
            | zero => simp at hi; exact absurd hi hs
            | succ n =>
              simp only [List.getElem?_cons_succ] at hi ⊢
              exact ih3 n hi
        | error e =>
          cases e
          have hstep := v3SatStep_miss_err cfg st s hl hres
          simp only [v3Epoch, hstep]
          obtain ⟨⟨ih1, ih2⟩, ih3⟩ :=
            ih { st with attempts := st.attempts ++ [s] } h
          refine ⟨⟨?_, ?_⟩, ?_⟩
          · intro hm
            obtain ⟨j1, j2⟩ := ih1 (hmem.mp hm)
            refine ⟨j1, ?_⟩
            rw [j2]
            simp [List.count_append, List.count_cons, hs]
          · intro hm
            obtain ⟨j1, j2⟩ := ih2 (fun hr => hm (hmem.mpr hr))
            refine ⟨j1, ?_⟩
            rw [j2]
            simp [List.count_append, List.count_cons, hs]
          · intro i hi
            cases i with
            | zero => simp at hi; exact absurd hi hs
            | succ n =>
              simp only [List.getElem?_cons_succ] at hi ⊢
              exact ih3 n hi

theorem v3StreamFrom_cached (cfg : V3Config) (sys : Char)
    (idx0 : (Nat × Nat) × (Nat × Nat)) :
    ∀ (epochs : List (List Char)) (st : V3State),
      lookupKey sys st.obs_indices = some idx0 →
      lookupKey sys (v3StreamFrom cfg st epochs).1.obs_indices = some idx0 ∧
      (v3StreamFrom cfg st epochs).1.attempts.count sys =
        st.attempts.count sys ∧
      ∀ (ei : Nat) sats, epochs[ei]? = some sats →
        ∀ i : Nat, sats[i]? = some sys →
          ∃ flags, (v3StreamFrom cfg st epochs).2[ei]? = some flags ∧
            flags[i]? = some true := by
  intro epochs
  induction epochs with
  | nil =>
    intro st h
    refine ⟨h, rfl, ?_⟩
    intro ei sats hei
    simp at hei
  | cons sats rest ih =>
    intro st h
    obtain ⟨he1, he2, he3⟩ := v3Epoch_cached cfg sys idx0 sats st h
    simp only [v3StreamFrom]
    obtain ⟨ih1, ih2, ih3⟩ := ih (v3Epoch cfg st sats).1 he1
    refine ⟨ih1, by rw [ih2, he2], ?_⟩
    intro ei sats2 hei i hi
    cases ei with
    | zero =>
      simp only [List.getElem?_cons_zero, Option.some.injEq] at hei
      subst hei
      exact ⟨(v3Epoch cfg st sats).2, by simp, he3 i hi⟩
    | succ n =>
      simp only [List.getElem?_cons_succ] at hei ⊢
      exact ih3 n sats2 hei i hi

theorem v3StreamFrom_ok (cfg : V3Config) (sys : Char)
    (idx : (Nat × Nat) × (Nat × Nat))
    (hok : indices_according_priority cfg sys = .ok idx) :
    ∀ (epochs : List (List Char)) (st : V3State),
      lookupKey sys st.obs_indices = none →
      (v3StreamFrom cfg st epochs).1.attempts.count sys ≤
        st.attempts.count sys + 1 ∧
      ∀ (ei : Nat) sats, epochs[ei]? = some sats →
        ∀ i : Nat, sats[i]? = some sys →
          ∃ flags, (v3StreamFrom cfg st epochs).2[ei]? = some flags ∧
            flags[i]? = some true := by
  intro epochs
  induction epochs with
  | nil =>
    intro st h
    refine ⟨by simp only [v3StreamFrom]; omega, ?_⟩
    intro ei sats hei
    simp at hei
  | cons sats rest ih =>
    intro st h
    obtain ⟨⟨hin, hout⟩, hflags⟩ := v3Epoch_uncached_ok cfg sys idx hok sats st h
    simp only [v3StreamFrom]
    by_cases hm : sys ∈ sats
    · obtain ⟨hc1, hc2⟩ := hin hm
      obtain ⟨sc1, sc2, sc3⟩ :=
        v3StreamFrom_cached cfg sys idx rest (v3Epoch cfg st sats).1 hc1
      refine ⟨by rw [sc2, hc2], ?_⟩
      intro ei sats2 hei i hi
      cases ei with
      | zero =>
        simp only [List.getElem?_cons_zero, Option.some.injEq] at hei
        subst hei
        exact ⟨(v3Epoch cfg st sats).2, by simp, hflags i hi⟩
      | succ n =>
        simp only [List.getElem?_cons_succ] at hei ⊢
        exact sc3 n sats2 hei i hi
    · obtain ⟨hc1, hc2⟩ := hout hm
      obtain ⟨ih1, ih2⟩ := ih (v3Epoch cfg st sats).1 hc1
      refine ⟨by omega, ?_⟩
      intro ei sats2 hei i hi
      cases ei with
      | zero =>
        simp only [List.getElem?_cons_zero, Option.some.injEq] at hei
        subst hei
        exact ⟨(v3Epoch cfg st sats).2, by simp, hflags i hi⟩
      | succ n =>
        simp only [List.getElem?_cons_succ] at hei ⊢
        exact ih2 n sats2 hei i hi

/-- C2 counterexample: on a v3 stream whose header declares only `S1C` for
GPS, band resolution for system `G` fails, yet after processing two `G`
satellites the resolution has been attempted twice (the attempt log is
`['G', 'G']`, not at most one attempt for the stream's lifetime) and the
failure was not stored in the cache (`obs_indices` still has no entry for
`G`); both satellites are indeed skipped. -/
theorem v3_resolution_failure_not_cached :
    indices_according_priority v3FailConfig 'G' = .error () ∧
    (v3Stream v3FailConfig [['G', 'G']]).1.attempts = ['G', 'G'] ∧
    lookupKey 'G' (v3Stream v3FailConfig [['G', 'G']]).1.obs_indices =
      none ∧
    (v3Stream v3FailConfig [['G', 'G']]).2 = [[false, false]] := by decide

/-- C2 amended: in the v3 decoder only a *successful* band/channel
resolution is cached for the stream's lifetime (so resolution runs at most
once per system and every satellite of that system yields a record), while
a failed resolution stores nothing and is re-attempted for every
subsequent satellite of that system; because resolution depends only on
the fixed header-derived configuration it fails identically each time, so
every satellite of a failed system is skipped for the remainder of the
stream. -/
theorem v3_cache_spec :
    (∀ (cfg : V3Config) (sys : Char) (epochs : List (List Char)),
      indices_according_priority cfg sys = .error () →
      lookupKey sys (v3Stream cfg epochs).1.obs_indices = none ∧
      (v3Stream cfg epochs).1.attempts.count sys =
        (epochs.map (List.count sys)).sum ∧
      ∀ (ei : Nat) sats, epochs[ei]? = some sats →
        ∀ i : Nat, sats[i]? = some sys →
          ∃ flags, (v3Stream cfg epochs).2[ei]? = some flags ∧
            flags[i]? = some false) ∧
    (∀ (cfg : V3Config) (sys : Char) (idx : (Nat × Nat) × (Nat × Nat))
      (epochs : List (List Char)),
      indices_according_priority cfg sys = .ok idx →
      (v3Stream cfg epochs).1.attempts.count sys ≤ 1 ∧
      ∀ (ei : Nat) sats, epochs[ei]? = some sats →
        ∀ i : Nat, sats[i]? = some sys →
          ∃ flags, (v3Stream cfg epochs).2[ei]? = some flags ∧
            flags[i]? = some true) := by
  constructor
  · intro cfg sys epochs herr
    obtain ⟨h1, h2, h3⟩ := v3StreamFrom_fail cfg sys herr epochs
      { obs_indices := [], attempts := [] } rfl
    exact ⟨h1, by simpa using h2, h3⟩
  · intro cfg sys idx epochs hok
    obtain ⟨h1, h2⟩ := v3StreamFrom_ok cfg sys idx hok epochs
      { obs_indices := [], attempts := [] } rfl
    exact ⟨by simpa using h1, h2⟩

/-- Witness for the amended C2 theorem: the failure half applied to a
stream of two GPS satellites under a header with no viable GPS codes, and
the success half applied to three GPS satellites over two epochs under a
header with viable codes. -/
theorem v3_cache_spec_witness :
    (lookupKey 'G' (v3Stream v3FailConfig [['G', 'G']]).1.obs_indices =
      none ∧
     (v3Stream v3FailConfig [['G', 'G']]).1.attempts.count 'G' =
       ([['G', 'G']].map (List.count 'G')).sum ∧
     ∀ (ei : Nat) sats, [['G', 'G']][ei]? = some sats →
       ∀ i : Nat, sats[i]? = some 'G' →
         ∃ flags, (v3Stream v3FailConfig [['G', 'G']]).2[ei]? = some flags ∧
           flags[i]? = some false) ∧
    ((v3Stream v3OkConfig [['G', 'G'], ['G']]).1.attempts.count 'G' ≤ 1 ∧
     ∀ (ei : Nat) sats, [['G', 'G'], ['G']][ei]? = some sats →
       ∀ i : Nat, sats[i]? = some 'G' →
         ∃ flags,
           (v3Stream v3OkConfig [['G', 'G'], ['G']]).2[ei]? = some flags ∧
           flags[i]? = some true) :=
  ⟨v3_cache_spec.1 v3FailConfig 'G' [['G', 'G']] (by decide),
   v3_cache_spec.2 v3OkConfig 'G' ((1, 2), (0, 3)) [['G', 'G'], ['G']]
     (by decide)⟩

theorem lookupKey_append_single {κ α : Type} [DecidableEq κ]
    (l : List (κ × α)) (k k2 : κ) (v : α) (hne : k2 ≠ k) :
    lookupKey k (l ++ [(k2, v)]) = lookupKey k l := by
  rw [lookupKey_append]
  cases h : lookupKey k l with
  | some w => rfl
  | none => simp only [lookupKey]; rw [if_neg hne]

theorem v2SatStepPr_hit (cfg : V2Config) (st : V2EpochState) (s : Char)
    (i : Nat × Nat) (h : lookupKey s st.pr_obs_index = some i) :
    v2SatStepPr cfg st s = (st, true) := by
  unfold v2SatStepPr
  rw [h]

theorem v2SatStepPr_miss_ok (cfg : V2Config) (st : V2EpochState) (s : Char)
    (idxs : List (Nat × Nat)) (h : lookupKey s st.pr_obs_index = none)
    (hok : v2_get_obs_indices cfg.obs_types (cfg.band_priority s)
      (cfg.pr_obs_priority s) = .ok idxs) :
    v2SatStepPr cfg st s =
      ({ st with
         pr_obs_index := st.pr_obs_index ++ [(s, idxs.headD (0, 0))],
         attempts := st.attempts ++ [s] }, true) := by
  unfold v2SatStepPr
  rw [h, hok]

theorem v2SatStepPr_miss_err (cfg : V2Config) (st : V2EpochState) (s : Char)
    (h : lookupKey s st.pr_obs_index = none)
    (herr : v2_get_obs_indices cfg.obs_types (cfg.band_priority s)
      (cfg.pr_obs_priority s) = .error ()) :
    v2SatStepPr cfg st s =
      ({ st with attempts := st.attempts ++ [s] }, false) := by
  unfold v2SatStepPr
  rw [h, herr]

theorem v2SatStep_phase_hit (cfg : V2Config) (st : V2EpochState) (s : Char)
    (i : Nat × Nat) (h : lookupKey s st.phase_obs_index = some i) :
    v2SatStep cfg st s = v2SatStepPr cfg st s := by
  unfold v2SatStep
  rw [h]

theorem v2SatStep_phase_miss_ok (cfg : V2Config) (st : V2EpochState)
    (s : Char) (idxs : List (Nat × Nat))
    (h : lookupKey s st.phase_obs_index = none)
    (hok : v2_get_obs_indices cfg.obs_types (cfg.band_priority s)
      [('L', 'L')] = .ok idxs) :
    v2SatStep cfg st s =
      v2SatStepPr cfg
        { st with
          phase_obs_index :=
            st.phase_obs_index ++ [(s, idxs.headD (0, 0))],
          attempts := st.attempts ++ [s] } s := by
  unfold v2SatStep
  rw [h, hok]

theorem v2SatStep_phase_miss_err (cfg : V2Config) (st : V2EpochState)
    (s : Char) (h : lookupKey s st.phase_obs_index = none)
    (herr : v2_get_obs_indices cfg.obs_types (cfg.band_priority s)
      [('L', 'L')] = .error ()) :
    v2SatStep cfg st s =
      ({ st with attempts := st.attempts ++ [s] }, false) := by
  unfold v2SatStep
  rw [h, herr]

theorem v2SatStep_other (cfg : V2Config) (st : V2EpochState) (s sys : Char)
    (hs : s ≠ sys) :
    lookupKey sys (v2SatStep cfg st s).1.phase_obs_index =
      lookupKey sys st.phase_obs_index ∧
    lookupKey sys (v2SatStep cfg st s).1.pr_obs_index =
      lookupKey sys st.pr_obs_index ∧
    (v2SatStep cfg st s).1.attempts.count sys = st.attempts.count sys := by
  have hcount : ∀ l : List Char, (l ++ [s]).count sys = l.count sys := by
    intro l
    simp [List.count_append, List.count_cons, hs]
  cases hl : lookupKey s st.phase_obs_index with
  | some i =>
    rw [v2SatStep_phase_hit cfg st s i hl]
    cases hl2 : lookupKey s st.pr_obs_index with
    | some j =>
      rw [v2SatStepPr_hit cfg st s j hl2]
      exact ⟨rfl, rfl, rfl⟩
    | none =>
      cases hres : v2_get_obs_indices cfg.obs_types (cfg.band_priority s)
          (cfg.pr_obs_priority s) with
      | ok idxs =>
        rw [v2SatStepPr_miss_ok cfg st s idxs hl2 hres]
        exact ⟨rfl, lookupKey_append_single _ _ _ _ hs, hcount _⟩
      | error e =>
        cases e
        rw [v2SatStepPr_miss_err cfg st s hl2 hres]
        exact ⟨rfl, rfl, hcount _⟩
  | none =>
    cases hres : v2_get_obs_indices cfg.obs_types (cfg.band_priority s)
        [('L', 'L')] with
    | error e =>
      cases e
      rw [v2SatStep_phase_miss_err cfg st s hl hres]
      exact ⟨rfl, rfl, hcount _⟩
    | ok idxs =>
      rw [v2SatStep_phase_miss_ok cfg st s idxs hl hres]
      cases hl2 : lookupKey s st.pr_obs_index with
      | some j =>
        rw [v2SatStepPr_hit cfg
          { phase_obs_index := st.phase_obs_index ++ [(s, idxs.headD (0, 0))],
            pr_obs_index := st.pr_obs_index,
            attempts := st.attempts ++ [s] } s j hl2]
        exact ⟨lookupKey_append_single _ _ _ _ hs, rfl, hcount _⟩
      | none =>
        cases hres2 : v2_get_obs_indices cfg.obs_types (cfg.band_priority s)
            (cfg.pr_obs_priority s) with
        | ok idxs2 =>
          rw [v2SatStepPr_miss_ok cfg
            { phase_obs_index :=
                st.phase_obs_index ++ [(s, idxs.headD (0, 0))],
              pr_obs_index := st.pr_obs_index,
              attempts := st.attempts ++ [s] } s idxs2 hl2 hres2]
          refine ⟨lookupKey_append_single _ _ _ _ hs,
            lookupKey_append_single _ _ _ _ hs, ?_⟩
          rw [hcount, hcount]
        | error e =>
          cases e
          rw [v2SatStepPr_miss_err cfg
            { phase_obs_index :=
                st.phase_obs_index ++ [(s, idxs.headD (0, 0))],
              pr_obs_index := st.pr_obs_index,
              attempts := st.attempts ++ [s] } s hl2 hres2]
          refine ⟨lookupKey_append_single _ _ _ _ hs, rfl, ?_⟩
          rw [hcount, hcount]

theorem v2SatStep_cached_self (cfg : V2Config) (st : V2EpochState)
    (sys : Char) (pi2 ri : Nat × Nat)
    (hph : lookupKey sys st.phase_obs_index = some pi2)
    (hpr : lookupKey sys st.pr_obs_index = some ri) :
    v2SatStep cfg st sys = (st, true) := by
  rw [v2SatStep_phase_hit cfg st sys pi2 hph,
    v2SatStepPr_hit cfg st sys ri hpr]

theorem v2SatStep_first_self (cfg : V2Config) (st : V2EpochState)
    (sys : Char) (pl rl : List (Nat × Nat))
    (hph : lookupKey sys st.phase_obs_index = none)
    (hpr : lookupKey sys st.pr_obs_index = none)
    (hp : v2_get_obs_indices cfg.obs_types (cfg.band_priority sys)
      [('L', 'L')] = .ok pl)
    (hr : v2_get_obs_indices cfg.obs_types (cfg.band_priority sys)
      (cfg.pr_obs_priority sys) = .ok rl) :
    v2SatStep cfg st sys =
      ({ phase_obs_index := st.phase_obs_index ++ [(sys, pl.headD (0, 0))],
         pr_obs_index := st.pr_obs_index ++ [(sys, rl.headD (0, 0))],
         attempts := st.attempts ++ [sys] ++ [sys] }, true) := by
  rw [v2SatStep_phase_miss_ok cfg st sys pl hph hp,
    v2SatStepPr_miss_ok cfg
      { phase_obs_index := st.phase_obs_index ++ [(sys, pl.headD (0, 0))],
        pr_obs_index := st.pr_obs_index,
        attempts := st.attempts ++ [sys] } sys rl hpr hr]

theorem v2Epoch_cached (cfg : V2Config) (sys : Char) (pi2 ri : Nat × Nat) :
    ∀ (sats : List Char) (st : V2EpochState),
      lookupKey sys st.phase_obs_index = some pi2 →
      lookupKey sys st.pr_obs_index = some ri →
      lookupKey sys (v2EpochFrom cfg st sats).1.phase_obs_index = some pi2 ∧
      lookupKey sys (v2EpochFrom cfg st sats).1.pr_obs_index = some ri ∧
      (v2EpochFrom cfg st sats).1.attempts.count sys =
        st.attempts.count sys ∧
      ∀ i : Nat, sats[i]? = some sys →
        (v2EpochFrom cfg st sats).2[i]? = some true := by
  intro sats
  induction sats with
  | nil =>
    intro st hph hpr
    refine ⟨hph, hpr, rfl, ?_⟩
    intro i hi
    simp at hi
  | cons s rest ih =>
    intro st hph hpr
    by_cases hs : s = sys
    · subst hs
      have hstep := v2SatStep_cached_self cfg st s pi2 ri hph hpr
      simp only [v2EpochFrom, hstep]
      obtain ⟨i1, i2, i3, i4⟩ := ih st hph hpr
      refine ⟨i1, i2, i3, ?_⟩
      intro i hi
      cases i with
      | zero => simp
      | succ n =>
        simp only [List.getElem?_cons_succ] at hi ⊢
        exact i4 n hi
    · obtain ⟨o1, o2, o3⟩ := v2SatStep_other cfg st s sys hs
      simp only [v2EpochFrom]
      obtain ⟨i1, i2, i3, i4⟩ := ih (v2SatStep cfg st s).1
        (by rw [o1]; exact hph) (by rw [o2]; exact hpr)
      refine ⟨i1, i2, by rw [i3, o3], ?_⟩
      intro i hi
      cases i with
      | zero => simp at hi; exact absurd hi hs
      | succ n =>
        simp only [List.getElem?_cons_succ] at hi ⊢
        exact i4 n hi

theorem v2Epoch_uncached (cfg : V2Config) (sys : Char)
    (pl rl : List (Nat × Nat))
    (hp : v2_get_obs_indices cfg.obs_types (cfg.band_priority sys)
      [('L', 'L')] = .ok pl)
    (hr : v2_get_obs_indices cfg.obs_types (cfg.band_priority sys)
      (cfg.pr_obs_priority sys) = .ok rl) :
    ∀ (sats : List Char) (st : V2EpochState),
      lookupKey sys st.phase_obs_index = none →
      lookupKey sys st.pr_obs_index = none →
      ((sys ∈ sats →
          (v2EpochFrom cfg st sats).1.attempts.count sys =
            st.attempts.count sys + 2) ∧
       (sys ∉ sats →
          lookupKey sys (v2EpochFrom cfg st sats).1.phase_obs_index =
            none ∧
          lookupKey sys (v2EpochFrom cfg st sats).1.pr_obs_index = none ∧
          (v2EpochFrom cfg st sats).1.attempts.count sys =
            st.attempts.count sys)) ∧
      ∀ i : Nat, sats[i]? = some sys →
        (v2EpochFrom cfg st sats).2[i]? = some true := by
  intro sats
  induction sats with
  | nil =>
    intro st hph hpr
    refine ⟨⟨fun hm => absurd hm (List.not_mem_nil sys),
      fun _ => ⟨hph, hpr, rfl⟩⟩, ?_⟩
    intro i hi
    simp at hi
  | cons s rest ih =>
    intro st hph hpr
    by_cases hs : s = sys
    · subst hs
      have hstep := v2SatStep_first_self cfg st s pl rl hph hpr hp hr
      simp only [v2EpochFrom, hstep]
      have hcp : lookupKey s (st.phase_obs_index ++ [(s, pl.headD (0, 0))]) =
          some (pl.headD (0, 0)) := by
        rw [lookupKey_append, hph]
        simp [lookupKey]
      have hcr : lookupKey s (st.pr_obs_index ++ [(s, rl.headD (0, 0))]) =
          some (rl.headD (0, 0)) := by
        rw [lookupKey_append, hpr]
        simp [lookupKey]
      obtain ⟨c1, c2, c3, c4⟩ := v2Epoch_cached cfg s (pl.headD (0, 0))
        (rl.headD (0, 0)) rest
        { phase_obs_index := st.phase_obs_index ++ [(s, pl.headD (0, 0))],
          pr_obs_index := st.pr_obs_index ++ [(s, rl.headD (0, 0))],
          attempts := st.attempts ++ [s] ++ [s] } hcp hcr
      refine ⟨⟨fun _ => ?_, fun hm =>
        absurd (List.mem_cons_self s rest) hm⟩, ?_⟩
      · rw [c3]
        simp [List.count_append, List.count_cons]
      · intro i hi
        cases i with
        | zero => simp
        | succ n =>
          simp only [List.getElem?_cons_succ] at hi ⊢
          exact c4 n hi
    · have hmem : sys ∈ s :: rest ↔ sys ∈ rest := by
        rw [List.mem_cons]
        constructor
        · rintro (he | hm)
          · exact absurd he.symm hs
          · exact hm
        · exact Or.inr
      obtain ⟨o1, o2, o3⟩ := v2SatStep_other cfg st s sys hs
      simp only [v2EpochFrom]
      obtain ⟨⟨i1, i2⟩, i3⟩ := ih (v2SatStep cfg st s).1
        (by rw [o1]; exact hph) (by rw [o2]; exact hpr)
      refine ⟨⟨?_, ?_⟩, ?_⟩
      · intro hm
        rw [i1 (hmem.mp hm), o3]
      · intro hm
        obtain ⟨j1, j2, j3⟩ := i2 (fun hmr => hm (hmem.mpr hmr))
        exact ⟨j1, j2, by rw [j3, o3]⟩
      · intro i hi
        cases i with
        | zero => simp at hi; exact absurd hi hs
        | succ n =>
          simp only [List.getElem?_cons_succ] at hi ⊢
          exact i3 n hi

theorem v2Stream_count (cfg : V2Config) (sys : Char)
    (pl rl : List (Nat × Nat))
    (hp : v2_get_obs_indices cfg.obs_types (cfg.band_priority sys)
      [('L', 'L')] = .ok pl)
    (hr : v2_get_obs_indices cfg.obs_types (cfg.band_priority sys)
      (cfg.pr_obs_priority sys) = .ok rl) :
    ∀ (epochs : List (List Char)),
      (v2Stream cfg epochs).1.count sys =
        (epochs.map (fun sats => if sys ∈ sats then 2 else 0)).sum ∧
      ∀ (ei : Nat) sats, epochs[ei]? = some sats →
        ∀ i : Nat, sats[i]? = some sys →
          ∃ flags, (v2Stream cfg epochs).2[ei]? = some flags ∧
            flags[i]? = some true := by
  intro epochs
  induction epochs with
  | nil =>
    refine ⟨rfl, ?_⟩
    intro ei sats hei
    simp at hei
  | cons sats rest ih =>
    obtain ⟨⟨hin, hout⟩, hflags⟩ := v2Epoch_uncached cfg sys pl rl hp hr sats
      { phase_obs_index := [], pr_obs_index := [], attempts := [] } rfl rfl
    obtain ⟨ih1, ih2⟩ := ih
    simp only [v2Stream, List.map_cons, List.sum_cons]
    constructor
    · rw [List.count_append, ih1]
      by_cases hm : sys ∈ sats
      · rw [if_pos hm]
        have h2 := hin hm
        simp only [v2Epoch]
        simp at h2
        omega
      · rw [if_neg hm]
        have h2 := (hout hm).2.2
        simp only [v2Epoch]
        simp at h2
        omega
    · intro ei sats2 hei i hi
      cases ei with
      | zero =>
        simp only [List.getElem?_cons_zero, Option.some.injEq] at hei
        subst hei
        exact ⟨(v2Epoch cfg sats).2, by simp, hflags i hi⟩
      | succ n =>
        simp only [List.getElem?_cons_succ] at hei ⊢
        exact ih2 n sats2 hei i hi

/-- C9 counterexample: on a v2 stream whose header declares `L1 L2 P1 P2`,
band resolution for GPS succeeds, yet processing two epochs with one GPS
satellite each invokes `_get_obs_indices` four times (phase and
pseudorange once per epoch, log `['G','G','G','G']`), not twice as a
cache "for the life of the decoder" would give — the resolution result is
recomputed in every epoch. -/
theorem v2_resolution_recomputed_per_epoch :
    v2_get_obs_indices v2OkConfig.obs_types (v2OkConfig.band_priority 'G')
      [('L', 'L')] = .ok [(0, 1)] ∧
    v2_get_obs_indices v2OkConfig.obs_types (v2OkConfig.band_priority 'G')
      (v2OkConfig.pr_obs_priority 'G') = .ok [(2, 3)] ∧
    (v2Stream v2OkConfig [['G']]).1 = ['G', 'G'] ∧
    (v2Stream v2OkConfig [['G'], ['G']]).1 = ['G', 'G', 'G', 'G'] ∧
    (v2Stream v2OkConfig [['G'], ['G']]).2 = [[true], [true]] := by decide

/-- C9 amended: in the v2 decoder the phase and pseudorange band/code
resolution for a system is computed on the first satellite of that system
*within an epoch* and cached only for the remainder of that epoch (the
cache dictionaries are re-initialised at every epoch): within one epoch the
resolution pair runs at most once per system (two `_get_obs_indices` calls,
phase and pseudorange) and every satellite of the system yields a record,
but over a stream it runs once per system per epoch in which the system
appears. -/
theorem v2_cache_spec :
    (∀ (cfg : V2Config) (sys : Char) (pl rl : List (Nat × Nat))
      (sats : List Char),
      v2_get_obs_indices cfg.obs_types (cfg.band_priority sys)
        [('L', 'L')] = .ok pl →
      v2_get_obs_indices cfg.obs_types (cfg.band_priority sys)
        (cfg.pr_obs_priority sys) = .ok rl →
      (v2Epoch cfg sats).1.attempts.count sys =
        (if sys ∈ sats then 2 else 0) ∧
      ∀ i : Nat, sats[i]? = some sys →
        (v2Epoch cfg sats).2[i]? = some true) ∧
    (∀ (cfg : V2Config) (sys : Char) (pl rl : List (Nat × Nat))
      (epochs : List (List Char)),
      v2_get_obs_indices cfg.obs_types (cfg.band_priority sys)
        [('L', 'L')] = .ok pl →
      v2_get_obs_indices cfg.obs_types (cfg.band_priority sys)
        (cfg.pr_obs_priority sys) = .ok rl →
      (v2Stream cfg epochs).1.count sys =
        (epochs.map (fun sats => if sys ∈ sats then 2 else 0)).sum ∧
      ∀ (ei : Nat) sats, epochs[ei]? = some sats →
        ∀ i : Nat, sats[i]? = some sys →
          ∃ flags, (v2Stream cfg epochs).2[ei]? = some flags ∧
            flags[i]? = some true) := by
  constructor
  · intro cfg sys pl rl sats hp hr
    obtain ⟨⟨hin, hout⟩, hflags⟩ := v2Epoch_uncached cfg sys pl rl hp hr sats
      { phase_obs_index := [], pr_obs_index := [], attempts := [] } rfl rfl
    refine ⟨?_, hflags⟩
    by_cases hm : sys ∈ sats
    · rw [if_pos hm]
      have h2 := hin hm
      simp only [v2Epoch]
      simp at h2
      omega
    · rw [if_neg hm]
      have h2 := (hout hm).2.2
      simp only [v2Epoch]
      simp at h2
      omega
  · intro cfg sys pl rl epochs hp hr
    exact v2Stream_count cfg sys pl rl hp hr epochs

/-- Witness for the amended C9 theorem: one epoch with two GPS satellites
(two resolution calls, both records yielded) and a stream of two epochs
with one GPS satellite each (two calls per epoch). -/
theorem v2_cache_spec_witness :
    ((v2Epoch v2OkConfig ['G', 'G']).1.attempts.count 'G' =
      (if 'G' ∈ ['G', 'G'] then 2 else 0) ∧
     ∀ i : Nat, ['G', 'G'][i]? = some 'G' →
       (v2Epoch v2OkConfig ['G', 'G']).2[i]? = some true) ∧
    ((v2Stream v2OkConfig [['G'], ['G']]).1.count 'G' =
      ([['G'], ['G']].map (fun sats => if 'G' ∈ sats then 2 else 0)).sum ∧
     ∀ (ei : Nat) sats, [['G'], ['G']][ei]? = some sats →
       ∀ i : Nat, sats[i]? = some 'G' →
         ∃ flags, (v2Stream v2OkConfig [['G'], ['G']]).2[ei]? = some flags ∧
           flags[i]? = some true) :=
  ⟨v2_cache_spec.1 v2OkConfig 'G' [(0, 1)] [(2, 3)] ['G', 'G'] (by decide)
      (by decide),
   v2_cache_spec.2 v2OkConfig 'G' [(0, 1)] [(2, 3)] [['G'], ['G']]
      (by decide) (by decide)⟩

end GnssTec
